import Mathlib

/-!
# CastSmith — verification of the workflow-orchestration core

Shallow embedding of the CastSmith podcast pipeline (JavaScript sources under
`src/src/`), covering:

* the naming-pattern classifier (`driveWatcher.js` `matchesNamingPattern`,
  `contentExtractor.js` episode-number extraction),
* the transcript → full-variant filename derivation
  (`processingQueue.js` `findFullEpisodeFile`),
* the slug function (`repoUpdater.js` `slugify`),
* the markdown document generator and its placeholder contract
  (`contentExtractor.js` `generateMarkdown`, `repoUpdater.js`
  `createEpisodeFile`),
* the extraction fallback path (`contentExtractor.js`
  `parseExtractedContent` / `createFallbackContent`),
* the single-worker FIFO queue (`processingQueue.js` `addToQueue` /
  `processQueue` / `getStatus`), and
* the per-job five-stage pipeline (`processingQueue.js` `processItem`).

Strings are modelled as `List Char` (`String.data`); machine integers as
`Nat` (JavaScript numbers in the relevant code are small non-negative
integers).  External collaborators (Google Drive, AssemblyAI, Anthropic,
R2, git) are modelled as outcome-valued parameters (`Except`), matching the
`await`-call sites in the source.
-/

set_option maxHeartbeats 1000000
set_option maxRecDepth 8192

namespace Castsmith

/-! ## Generic character/string-list machinery -/

/-- ASCII lowercase mapping, the canonicalisation used by a JavaScript
case-insensitive (`/i`) regex over an ASCII pattern: `A`–`Z` map to
`a`–`z`, everything else is unchanged. -/
def lowerAscii (c : Char) : Char :=
  if 65 ≤ c.toNat && c.toNat ≤ 90 then Char.ofNat (c.toNat + 32) else c

/-- Boolean "is `p` a prefix of `s`" on character lists. -/
def isPrefixCh : List Char → List Char → Bool
  | [], _ => true
  | _ :: _, [] => false
  | p :: ps, c :: cs => p == c && isPrefixCh ps cs

/-- Boolean "does `pat` occur (as a contiguous substring) in `s`". -/
def occursB (pat : List Char) : List Char → Bool
  | [] => isPrefixCh pat []
  | c :: t => isPrefixCh pat (c :: t) || occursB pat t

/-- `String.prototype.replace` with a plain-string pattern: replace the
first occurrence of `pat` by `repl`, return the input unchanged when `pat`
does not occur (JavaScript semantics, including the empty-pattern corner
case of replacing at position 0). -/
def replaceFirst (pat repl : List Char) : List Char → List Char
  | [] => if isPrefixCh pat [] then repl else []
  | c :: t =>
    if isPrefixCh pat (c :: t) then repl ++ (c :: t).drop pat.length
    else c :: replaceFirst pat repl t

/-- Split `s` at the first occurrence of `pat`: the part before the match
and the part after it. -/
def splitFirst (pat : List Char) : List Char → Option (List Char × List Char)
  | [] => if isPrefixCh pat [] then some ([], []) else none
  | c :: t =>
    if isPrefixCh pat (c :: t) then some ([], (c :: t).drop pat.length)
    else
      match splitFirst pat t with
      | some (pre, post) => some (c :: pre, post)
      | none => none

/-- Decimal digit character for `m < 10`. -/
def digitCh (m : Nat) : Char :=
  if m = 0 then '0' else if m = 1 then '1' else if m = 2 then '2'
  else if m = 3 then '3' else if m = 4 then '4' else if m = 5 then '5'
  else if m = 6 then '6' else if m = 7 then '7' else if m = 8 then '8'
  else '9'

/-- Decimal rendering of a natural number (JavaScript number-to-string for
the small non-negative integers the pipeline manipulates). -/
def natDigits (n : Nat) : List Char :=
  if _h : n < 10 then [digitCh n]
  else natDigits (n / 10) ++ [digitCh (n % 10)]
  termination_by n
  decreasing_by exact Nat.div_lt_self (by omega) (by omega)

/-- `parseInt` of a non-empty decimal digit string: the numeric value, with
leading zeros stripped by the arithmetic itself. -/
def digitsToNat (ds : List Char) : Nat :=
  ds.foldl (fun a c => a * 10 + (c.toNat - 48)) 0

/-! ## FileClassifier (`driveWatcher.js` lines 87–91, `contentExtractor.js`
lines 15–18) -/

/-- The extension alternation `(mp3|flac|wav|m4a)` of the watcher regex,
applied to the already case-folded remainder after the dot. -/
def extOK (rest : List Char) : Bool :=
  rest == "mp3".data || rest == "flac".data || rest == "wav".data || rest == "m4a".data

/-- `matchesNamingPattern` body on case-folded characters: the regex
`^cosmic-\d{2}\.(mp3|flac|wav|m4a)$` (note: the tag `cosmic` is hardcoded
in the source, the digit count is exactly two, and no variant suffix is
admitted by the pattern). -/
def mnpL : List Char → Bool
  | 'c' :: 'o' :: 's' :: 'm' :: 'i' :: 'c' :: '-' :: a :: b :: '.' :: rest =>
    a.isDigit && b.isDigit && extOK rest
  | _ => false

/-- `DriveWatcher.matchesNamingPattern` (driveWatcher.js lines 87–91):
`/^cosmic-\d{2}\.(mp3|flac|wav|m4a)$/i.test(filename)`.  The `/i` flag is
modelled by ASCII case folding before matching. -/
def matchesNamingPattern (filename : String) : Bool :=
  mnpL (filename.data.map lowerAscii)

/-- Case-insensitive (ASCII) literal prefix test. -/
def ciPfx : List Char → List Char → Bool
  | [], _ => true
  | _ :: _, [] => false
  | p :: ps, c :: cs => lowerAscii p == lowerAscii c && ciPfx ps cs

/-- One attempt of the regex `<tag>-(\d+)` (case-insensitive) at the start
of `s`: the tag literally (ASCII-ci), a hyphen, then a maximal non-empty
digit run, whose `parseInt` value is returned. -/
def matchAt (tag s : List Char) : Option Nat :=
  if ciPfx tag s then
    match s.drop tag.length with
    | '-' :: r =>
      let ds := r.takeWhile Char.isDigit
      if ds = [] then none else some (digitsToNat ds)
    | _ => none
  else none

/-- `filename.match(new RegExp(podcastName + "-(\\d+)", "i"))` followed by
`parseInt` on the captured group (contentExtractor.js lines 15–18):
leftmost match wins, digits are taken greedily, leading zeros are stripped
by the integer parse.  `none` models the `null` episode number of a
non-matching name. -/
def firstMatchNum (tag : List Char) : List Char → Option Nat
  | [] => none
  | c :: t =>
    match matchAt tag (c :: t) with
    | some n => some n
    | none => firstMatchNum tag t

/-- The episode-number extraction of `ContentExtractor.extract`
(contentExtractor.js lines 15–18), parameterised by the configured
`PODCAST_NAME`. -/
def extractEpisodeNum (podcastName filename : String) : Option Nat :=
  firstMatchNum podcastName.data filename.data

/-- The transcript-variant → full-variant filename derivation of
`ProcessingQueue.findFullEpisodeFile` (processingQueue.js line 160):
`transcriptFile.name.replace('-no-mix', '')`. -/
def findFullBase (name : String) : String :=
  ⟨replaceFirst "-no-mix".data [] name.data⟩

/-! ## Slugify (`repoUpdater.js` lines 134–145) -/

/-- `String.prototype.toLowerCase`, restricted to the ASCII and Latin-1
ranges (plus `Ÿ`).  Characters outside these ranges whose Unicode lowercase
forms are not modelled are left unchanged; both such a character and its
true lowercase form are removed by the subsequent `[^a-z0-9\s-]` filter, so
the slug output is unaffected. -/
def charLower (c : Char) : Char :=
  if 65 ≤ c.toNat && c.toNat ≤ 90 then Char.ofNat (c.toNat + 32)
  else if 192 ≤ c.toNat && c.toNat ≤ 222 && !(c.toNat == 215) then Char.ofNat (c.toNat + 32)
  else if c.toNat == 376 then Char.ofNat 255
  else c

/-- The accent-folding replacement of `slugify`: the character class
`[àâäèéêëïîôùûüÿç]` with its lookup table (repoUpdater.js lines 137–140).
Guards are written on code points: 224 'à', 226 'â', 228 'ä', 232 'è',
233 'é', 234 'ê', 235 'ë', 239 'ï', 238 'î', 244 'ô', 249 'ù', 251 'û',
252 'ü', 255 'ÿ', 231 'ç'. -/
def accentFoldCh (c : Char) : Char :=
  if c.toNat == 224 || c.toNat == 226 || c.toNat == 228 then 'a'
  else if c.toNat == 232 || c.toNat == 233 || c.toNat == 234 || c.toNat == 235 then 'e'
  else if c.toNat == 239 || c.toNat == 238 then 'i'
  else if c.toNat == 244 then 'o'
  else if c.toNat == 249 || c.toNat == 251 || c.toNat == 252 then 'u'
  else if c.toNat == 255 then 'y'
  else if c.toNat == 231 then 'c'
  else c

/-- The JavaScript regex `\s` class (whitespace), by code point. -/
def isSpaceCh (c : Char) : Bool :=
  c.toNat == 32 || c.toNat == 9 || c.toNat == 10 || c.toNat == 11 ||
  c.toNat == 12 || c.toNat == 13 || c.toNat == 160 || c.toNat == 0x1680 ||
  (0x2000 ≤ c.toNat && c.toNat ≤ 0x200A) || c.toNat == 0x2028 ||
  c.toNat == 0x2029 || c.toNat == 0x202F || c.toNat == 0x205F ||
  c.toNat == 0x3000 || c.toNat == 0xFEFF

/-- The character class `[a-z0-9\s-]` kept by `slugify`'s
`replace(/[^a-z0-9\s-]/g, '')`. -/
def isAllowedCh (c : Char) : Bool :=
  (97 ≤ c.toNat && c.toNat ≤ 122) || (48 ≤ c.toNat && c.toNat ≤ 57) ||
  isSpaceCh c || c.toNat == 45

/-- `String.prototype.trim`: strip whitespace from both ends. -/
def trimL (s : List Char) : List Char :=
  ((s.dropWhile isSpaceCh).reverse.dropWhile isSpaceCh).reverse

/-- Global replacement of each maximal run of `p`-characters by the single
character `r`: models the global regex replacement of whitespace runs by a
hyphen (with `p` the whitespace class) and of hyphen runs by a hyphen (with
`p` the hyphen test).  The Boolean argument records whether the scan is
currently inside a run. -/
def collapseRuns (p : Char → Bool) (r : Char) : Bool → List Char → List Char
  | _, [] => []
  | inRun, c :: t =>
    if p c then
      if inRun then collapseRuns p r true t
      else r :: collapseRuns p r true t
    else c :: collapseRuns p r false t

/-- `RepoUpdater.slugify` (repoUpdater.js lines 134–145) on character
lists: lowercase, fold the fifteen listed accented characters, strip
characters outside `[a-z0-9\s-]`, trim, replace whitespace runs by single
hyphens, collapse hyphen runs. -/
def slugL (s : List Char) : List Char :=
  collapseRuns (fun c => c == '-') '-' false
    (collapseRuns isSpaceCh '-' false
      (trimL (List.filter isAllowedCh (List.map accentFoldCh (List.map charLower s)))))

/-- `RepoUpdater.slugify` on strings. -/
def slugify (s : String) : String := ⟨slugL s.data⟩

/-! ## Data model (`contentExtractor.js`, `processingQueue.js`) -/

/-- A track of the extracted JSON (prompt schema, contentExtractor.js
lines 82–91). -/
structure Track where
  artist : String
  title : String
  label : Option String
  year : Option String
  genre : Option String
  youtubeLink : Option String
deriving DecidableEq

/-- A guest of the extracted JSON (lines 99–105). -/
structure Guest where
  name : String
  project : Option String
  links : List String
deriving DecidableEq

/-- An event of the extracted JSON (lines 92–98). -/
structure EventItem where
  name : String
  location : Option String
  typ : Option String
deriving DecidableEq

/-- The fields of a successfully `JSON.parse`d extraction response. -/
structure Fields where
  title : String
  description : String
  openingMonologue : Option String
  tracks : List Track
  events : List EventItem
  guests : List Guest
deriving DecidableEq

/-- `ExtractedContent` as assembled by `parseExtractedContent` /
`createFallbackContent`.  The impure `extractedAt` timestamp and the
`transcriptMetadata` echo are omitted: no claim mentions them.  `duration`
is `none` on the parsed path (the prompt schema has no duration field) and
set on the fallback path; `generateMarkdown` defaults a missing or empty
duration to `0:00:00`. -/
structure Content where
  episodeNumber : Option Nat
  title : String
  description : String
  openingMonologue : Option String
  duration : Option String
  tracks : List Track
  events : List EventItem
  guests : List Guest
  markdownContent : String
deriving DecidableEq

/-- Transcript result as consumed by the extractor: the text fed to the
prompt and the audio duration in whole seconds (used by the fallback). -/
structure Transcript where
  text : String
  duration : Nat
deriving DecidableEq

/-! ## DocumentGenerator (`contentExtractor.js` lines 148–225) -/

/-- The literal audio-location placeholder `TO_BE_REPLACED_WITH_R2_URL`. -/
def urlTok : List Char := "TO_BE_REPLACED_WITH_R2_URL".data

/-- The literal size placeholder `TO_BE_CALCULATED`. -/
def sizeTok : List Char := "TO_BE_CALCULATED".data

/-- JavaScript template interpolation of the (possibly `null`) episode
number. -/
def renderEpL (e : Option Nat) : List Char :=
  match e with
  | none => "null".data
  | some n => natDigits n

/-- `content.duration || '0:00:00'` (line 159): `undefined`, `null` and the
empty string all fall back to the default. -/
def durStrL (d : Option String) : List Char :=
  match d with
  | none => "0:00:00".data
  | some s => if s = "" then "0:00:00".data else s.data

/-- `content.openingMonologue.replace(/\n/g, '  \n> ')` (line 180): a
global single-character replacement. -/
def renderMonoL (m : String) : List Char :=
  m.data.foldr (fun ch acc => if ch == '\n' then "  \n> ".data ++ acc else ch :: acc) []

/-- The conditional opening-monologue block (lines 177–185); JavaScript
truthiness makes an empty monologue behave like an absent one. -/
def monoBlockL (c : Content) : List Char :=
  match c.openingMonologue with
  | none => []
  | some m =>
    if m = "" then []
    else "## Le monologue de Jérôme\n\n> ".data ++ renderMonoL m ++ "\n\n---\n\n".data

/-- `${guest.project}` with `undefined` rendering, as JavaScript
interpolates a missing property (line 195). -/
def projStrL (g : Guest) : List Char :=
  match g.project with
  | none => "undefined".data
  | some p => p.data

/-- One guest line of the guest-mix section (line 195). -/
def guestRowL (g : Guest) : List Char :=
  "[".data ++ g.name.data ++ "](".data ++ projStrL g ++ ") Merci encore !!\n\n".data

/-- The conditional guest-mix section (lines 192–197). -/
def guestsSectionL (c : Content) : List Char :=
  if c.guests.isEmpty then []
  else "## Guest Mix\n\n".data ++ (c.guests.map guestRowL).flatten

/-- `[track.label, track.year].filter(Boolean).flatten(' - ') || 'Original'`
(line 207): falsy (absent or empty) entries are dropped. -/
def infoStrL (t : Track) : List Char :=
  let ps : List (List Char) :=
    (match t.label with
     | some s => if s = "" then [] else [s.data]
     | none => []) ++
    (match t.year with
     | some s => if s = "" then [] else [s.data]
     | none => [])
  match ps with
  | [] => "Original".data
  | [x] => x
  | x :: rest => x ++ " - ".data ++ (match rest with | [] => [] | y :: _ => y)

/-- The YouTube-link cell (line 208), with JavaScript truthiness on the
link. -/
def linkStrL (t : Track) : List Char :=
  match t.youtubeLink with
  | none => "Lien à vérifier".data
  | some l =>
    if l = "" then "Lien à vérifier".data
    else "[écouter](".data ++ l.data ++ ")".data

/-- One table row of the track list (line 209). -/
def trackRowL (t : Track) : List Char :=
  "| ".data ++ t.artist.data ++ " | ".data ++ t.title.data ++ " | ".data ++
  infoStrL t ++ " | ".data ++ linkStrL t ++ " |\n".data

/-- The conditional track table (lines 200–212). -/
def tracksSectionL (c : Content) : List Char :=
  if c.tracks.isEmpty then []
  else
    "## Morceaux mentionnés\n\n| Artiste | Morceau | Info | Lien YouTube |\n|---------|---------|------|--------------|\n".data
    ++ (c.tracks.map trackRowL).flatten ++ "\n---\n\n".data

/-- The optional location suffix of an event bullet (lines 219–220), with
JavaScript truthiness on the location. -/
def eventLocL (e : EventItem) : List Char :=
  match e.location with
  | none => []
  | some l => if l = "" then [] else " - ".data ++ l.data

/-- One bullet of the events section (lines 218–221). -/
def eventRowL (e : EventItem) : List Char :=
  "- **".data ++ e.name.data ++ "**".data ++ eventLocL e ++ "\n".data

/-- The conditional events section (lines 215–222). -/
def eventsSectionL (c : Content) : List Char :=
  if c.events.isEmpty then []
  else "## Événements mentionnés\n\n".data ++ (c.events.map eventRowL).flatten

/-- Header of the generated document up to (excluding) the audio-URL
placeholder (lines 155–157). -/
def hdrPreL (c : Content) : List Char :=
  "---\ntitle: \"".data ++ c.title.data ++ "\"\naudioUrl: \"".data

/-- Header between the audio-URL placeholder and the size placeholder
(lines 157–160; the URL line ends with two literal spaces). -/
def hdrMidL (pubDate : String) (c : Content) : List Char :=
  "\"  \npubDate: \"".data ++ pubDate.data ++ "\"\nduration: \"".data ++
  durStrL c.duration ++ "\"\nsize: ".data

/-- Remainder of the fixed header after the size placeholder, through the
host line and the closing rule (lines 161–174). -/
def hdrPostL (c : Content) : List Char :=
  "\ncover: \"/images/ep".data ++ renderEpL c.episodeNumber ++
  ".png\"\nexplicit: true\nepisode: ".data ++ renderEpL c.episodeNumber ++
  "\nseason: 1\nepisodeType: full\n---\n\n# ".data ++ c.title.data ++
  "\n\nAnimé par [Jerohm](https://jerohm.com/) avec la complicité de [Antoine aka Cosmic Turtle](https://i.seadn.io/gcs/files/a552993aecdcdb0aedd93116bc207e59.png?auto=format&w=1400&fr=1), [Greg aka Joe d'Absynth](https://soundcloud.com/gregory-berger-1) et [Kevin aka George Mood](https://soundcloud.com/george_mood)\n\n---\n\n".data

/-- Document body after the header: monologue block, description, then the
three conditional sections in source order (lines 177–222). -/
def bodyL (c : Content) : List Char :=
  monoBlockL c ++ c.description.data ++ "\n\n".data ++ guestsSectionL c ++
  tracksSectionL c ++ eventsSectionL c

/-- `ContentExtractor.generateMarkdown` (lines 148–225) on character
lists.  The impure `new Date().toLocaleDateString(...)` publication date is
passed in as a parameter. -/
def generateMarkdownL (pubDate : String) (c : Content) : List Char :=
  hdrPreL c ++ urlTok ++ hdrMidL pubDate c ++ sizeTok ++ hdrPostL c ++ bodyL c

/-- `ContentExtractor.generateMarkdown` on strings. -/
def generateMarkdown (pubDate : String) (c : Content) : String :=
  ⟨generateMarkdownL pubDate c⟩

/-! ## Extraction fallback (`contentExtractor.js` lines 115–275) -/

/-- `n.toString().padStart(2, '0')` for the minute/second components. -/
def pad2 (n : Nat) : List Char :=
  if n < 10 then '0' :: natDigits n else natDigits n

/-- `ContentExtractor.formatDuration` (lines 265–274) on whole seconds. -/
def formatDuration (seconds : Nat) : List Char :=
  let hours := seconds / 3600
  let minutes := (seconds % 3600) / 60
  let secs := seconds % 60
  if hours > 0 then natDigits hours ++ ":".data ++ pad2 minutes ++ ":".data ++ pad2 secs
  else natDigits minutes ++ ":".data ++ pad2 secs

/-- The fixed fallback markdown template of `createFallbackContent`
(lines 243–261). -/
def fallbackMdL (pubDate : String) (ep : Option Nat) (durS : List Char) : List Char :=
  "---\ntitle: Episode ".data ++ renderEpL ep ++
  ", Cosmic, L'émission\naudioUrl: \"TO_BE_REPLACED_WITH_R2_URL\"\npubDate: ".data ++
  pubDate.data ++ "\nduration: ".data ++ durS ++
  "\nsize: TO_BE_CALCULATED\ncover: \"/images/ep".data ++ renderEpL ep ++
  ".png\"\nexplicit: true\nepisode: ".data ++ renderEpL ep ++
  "\nseason: 1\nepisodeType: full\n---\n\n# Episode ".data ++ renderEpL ep ++
  ", Cosmic, L'émission\n\nProlongement des soirées Cosmic. Animé par Jerohm avec la complicité de Cosmic Turtle, George Mood et Joe d'Absynth.\n\nTranscription automatique en cours de traitement...\n".data

/-- `ContentExtractor.createFallbackContent` (lines 227–263): deterministic
minimal content with empty lists.  `transcript.duration || 0` is subsumed
by the total `Nat` duration. -/
def createFallbackContent (pubDate : String) (ep : Option Nat) (tr : Transcript) : Content :=
  { episodeNumber := ep
    title := ⟨"Episode ".data ++ renderEpL ep ++ ", Cosmic, L'émission".data⟩
    description := "Prolongement des soirées Cosmic. Animé par Jerohm avec la complicité de Cosmic Turtle, George Mood et Joe d'Absynth."
    openingMonologue := none
    duration := some ⟨formatDuration tr.duration⟩
    tracks := []
    events := []
    guests := []
    markdownContent := ⟨fallbackMdL pubDate ep (formatDuration tr.duration)⟩ }

/-- The regex extraction of the fenced JSON block (line 118): the capture
between the first occurrence of the opener and the first subsequent
occurrence of the closer; the whole text when there is no such block. -/
def extractJsonBlockL (text : List Char) : List Char :=
  match splitFirst "```json\n".data text with
  | none => text
  | some (_, rest) =>
    match splitFirst "\n```".data rest with
    | none => text
    | some (mid, _) => mid

/-- `ContentExtractor.parseExtractedContent` (lines 115–146).  The external
`JSON.parse`-plus-validation step is the parameter `jsonParse`; `none`
models a thrown parse error, routing to the fallback content.  On success
the result carries the episode number computed by `extract` and the
markdown generated from the assembled content. -/
def parseExtractedContent (jsonParse : List Char → Option Fields) (pubDate : String)
    (text : List Char) (ep : Option Nat) (tr : Transcript) : Content :=
  match jsonParse (extractJsonBlockL text) with
  | some f =>
    let c : Content :=
      { episodeNumber := ep, title := f.title, description := f.description
        openingMonologue := f.openingMonologue, duration := none
        tracks := f.tracks, events := f.events, guests := f.guests
        markdownContent := "" }
    { c with markdownContent := generateMarkdown pubDate c }
  | none => createFallbackContent pubDate ep tr

/-- `ContentExtractor.extract` (lines 11–42): compute the episode number
from the filename, call the Anthropic collaborator (outcome passed in as
`collab`), parse its text.  The surrounding try/catch rethrows any
collaborator error (lines 38–41), so a thrown collaborator error is
returned as `.error`, while a malformed response text is recovered inside
`parseExtractedContent`. -/
def extractContent (podcastName : String) (collab : Except String String)
    (jsonParse : List Char → Option Fields) (pubDate : String)
    (tr : Transcript) (filename : String) : Except String Content :=
  let ep := extractEpisodeNum podcastName filename
  match collab with
  | .error e => .error e
  | .ok text => .ok (parseExtractedContent jsonParse pubDate text.data ep tr)

/-! ## Publish-stage placeholder resolution (`repoUpdater.js` lines 57–93) -/

/-- The placeholder substitution of `RepoUpdater.createEpisodeFile`
(lines 67–78): replace the first occurrence of the URL placeholder by the
upload URL (only when the upload result carries one), then the first
occurrence of the size placeholder by the rendered size estimate.  The
floating-point size estimate is external to the claims and enters as the
already-rendered string `sizeStr`. -/
def resolveMarkdownL (audioUrl : Option String) (sizeStr : String) (md : List Char) : List Char :=
  let md1 :=
    match audioUrl with
    | none => md
    | some u => replaceFirst urlTok u.data md
  replaceFirst sizeTok sizeStr.data md1

/-! ## WorkQueue (`processingQueue.js` lines 20–62, 220–232) -/

/-- Observable queue events.  `enqueue j` is `addToQueue` for the job
token `j` (tokens stand for the distinct `queueItem` objects); `finish` is
the return of the awaited `processItem` call, after which the worker loop
dequeues the next head or stops. -/
inductive QEvent where
  | enqueue (j : Nat)
  | finish
deriving DecidableEq

/-- The queue-relevant state of a `ProcessingQueue`: the in-memory array
`this.queue`, the job currently inside `processItem` (if any), the
completed-run order, and the `this.processing` flag. -/
structure QState where
  queue : List Nat
  inFlight : Option Nat
  processed : List Nat
  processing : Bool
deriving DecidableEq

/-- Initial queue state (constructor, lines 10–11). -/
def qInit : QState := ⟨[], none, [], false⟩

/-- One step of the queue semantics.  `enqueue`: push to the tail
(line 37); when no worker is active, `processQueue` starts (lines 40–42,
47–57) and immediately shifts the head into the worker.  `finish`: the
worker records the finished job and shifts the next head, or exits the
loop and clears `processing` (lines 55–61). -/
def qStep (s : QState) : QEvent → QState
  | .enqueue j =>
    if s.processing then { s with queue := s.queue ++ [j] }
    else
      match s.queue ++ [j] with
      | [] => { s with processing := true }
      | x :: rest => ⟨rest, some x, s.processed, true⟩
  | .finish =>
    match s.inFlight with
    | none => s
    | some j =>
      match s.queue with
      | [] => ⟨[], none, s.processed ++ [j], false⟩
      | x :: rest => ⟨rest, some x, s.processed ++ [j], true⟩

/-- Run a trace of events from the initial state. -/
def qRun (tr : List QEvent) : QState := tr.foldl qStep qInit

/-- The job tokens enqueued by a trace, in enqueue order. -/
def enqueuedIds : List QEvent → List Nat
  | [] => []
  | .enqueue j :: t => j :: enqueuedIds t
  | .finish :: t => enqueuedIds t

/-- An `Option` as a zero-or-one element list. -/
def optList : Option Nat → List Nat
  | none => []
  | some j => [j]

/-- The snapshot returned by `getStatus` (lines 220–232): the length of
`this.queue`, the `processing` flag, and the still-queued items. -/
structure QStatus where
  queueLength : Nat
  processing : Bool
  items : List Nat
deriving DecidableEq

/-- `ProcessingQueue.getStatus` over the model state. -/
def getStatus (s : QState) : QStatus := ⟨s.queue.length, s.processing, s.queue⟩

/-! ## PipelineRunner (`processingQueue.js` lines 64–218) -/

/-- Per-step status of a queue item (`item.steps`, lines 28–34).  The
source never assigns a `failed` step value: the failing step keeps its
`in_progress` value when the catch block runs. -/
inductive StepState where
  | pending
  | inProgress
  | completed
deriving DecidableEq

/-- The five step flags of a queue item. -/
structure Steps where
  download : StepState
  transcription : StepState
  extraction : StepState
  upload : StepState
  repoUpdate : StepState
deriving DecidableEq

/-- Item status values (lines 26, 69, 136, 148). -/
inductive JobStatus where
  | queued
  | processing
  | completed
  | failed
deriving DecidableEq

/-- A candidate file as enqueued by the watcher. -/
structure CandFile where
  name : String
  fileId : String
  size : Nat
deriving DecidableEq

/-- The upload result consumed by the repository stage
(`uploadedUrls.audioUrl`, repoUpdater.js line 70). -/
structure Urls where
  audioUrl : Option String
deriving DecidableEq

/-- The collaborator environment of one `processItem` run: every external
`await` call site, as an outcome-valued function.  `resolveEpisode` is the
call `this.driveWatcher.extractEpisodeNumber(item.file.name)` (line 72);
`collabText` is the Anthropic message call inside
`ContentExtractor.extract`; `jsonParse` is `JSON.parse`; `listFull` and
`downloadFull` are the Drive lookup and download inside
`findFullEpisodeFile`. -/
structure Env where
  resolveEpisode : String → Except String (Option Nat)
  download : String → Except String String
  transcribe : String → Except String Transcript
  collabText : Transcript → Except String String
  jsonParse : List Char → Option Fields
  pubDate : String
  podcastName : String
  listFull : String → Except String (Option CandFile)
  downloadFull : CandFile → Except String String
  upload : String → Except String Urls
  repoUpdate : Content → Urls → Except String Unit

/-- The observable outcome of one `processItem` run: final item status and
error, step flags, whether `initializeEpisode` ran, the `finalizeEpisode`
call (status and error) if any, and the extracted content handed to the
upload/publish stages. -/
structure ItemResult where
  status : JobStatus
  error : Option String
  steps : Steps
  recordInit : Bool
  recordFinal : Option (JobStatus × Option String)
  extracted : Option Content
deriving DecidableEq

/-- `ProcessingQueue.findFullEpisodeFile` (lines 157–194): derive the base
name by stripping `-no-mix`, look the full file up in Drive, download it;
on a missing file or any caught error fall back to downloading the
transcript file itself (which may in turn fail, propagating). -/
def findFullEpisodeFile (env : Env) (file : CandFile) : Except String String :=
  let base : String := ⟨replaceFirst "-no-mix".data [] file.name.data⟩
  match env.listFull base with
  | .ok (some f) =>
    match env.downloadFull f with
    | .ok p => .ok p
    | .error _ => env.download file.name
  | .ok none => env.download file.name
  | .error _ => env.download file.name

/-- All-pending step flags. -/
def stepsInit : Steps := ⟨.pending, .pending, .pending, .pending, .pending⟩

/-- `ProcessingQueue.processItem` (lines 64–155): the five stages in
order, inside one try/catch.  The catch marks the item failed, records the
error message, and finalizes the episode record only when the episode
number had resolved; the failing step keeps its `in_progress` value and
later steps stay `pending`.  Data-logger writes are modelled by the
`recordInit`/`recordFinal` observations (their internal failures are
swallowed by the logger and do not influence control flow). -/
def processItem (env : Env) (file : CandFile) : ItemResult :=
  match env.resolveEpisode file.name with
  | .error e =>
    { status := .failed, error := some e, steps := stepsInit
      recordInit := false, recordFinal := none, extracted := none }
  | .ok ep =>
    let ri := ep.isSome
    let recFin : Option String → Option (JobStatus × Option String) := fun err =>
      if ri then
        some (match err with
              | some m => (JobStatus.failed, some m)
              | none => (JobStatus.completed, none))
      else none
    match env.download file.name with
    | .error e =>
      { status := .failed, error := some e
        steps := ⟨.inProgress, .pending, .pending, .pending, .pending⟩
        recordInit := ri, recordFinal := recFin (some e), extracted := none }
    | .ok localPath =>
      match env.transcribe localPath with
      | .error e =>
        { status := .failed, error := some e
          steps := ⟨.completed, .inProgress, .pending, .pending, .pending⟩
          recordInit := ri, recordFinal := recFin (some e), extracted := none }
      | .ok tr =>
        match extractContent env.podcastName (env.collabText tr) env.jsonParse
              env.pubDate tr file.name with
        | .error e =>
          { status := .failed, error := some e
            steps := ⟨.completed, .completed, .inProgress, .pending, .pending⟩
            recordInit := ri, recordFinal := recFin (some e), extracted := none }
        | .ok content =>
          match findFullEpisodeFile env file with
          | .error e =>
            { status := .failed, error := some e
              steps := ⟨.completed, .completed, .completed, .inProgress, .pending⟩
              recordInit := ri, recordFinal := recFin (some e), extracted := some content }
          | .ok fullPath =>
            match env.upload fullPath with
            | .error e =>
              { status := .failed, error := some e
                steps := ⟨.completed, .completed, .completed, .inProgress, .pending⟩
                recordInit := ri, recordFinal := recFin (some e), extracted := some content }
            | .ok urls =>
              match env.repoUpdate content urls with
              | .error e =>
                { status := .failed, error := some e
                  steps := ⟨.completed, .completed, .completed, .completed, .inProgress⟩
                  recordInit := ri, recordFinal := recFin (some e), extracted := some content }
              | .ok _ =>
                { status := .completed, error := none
                  steps := ⟨.completed, .completed, .completed, .completed, .completed⟩
                  recordInit := ri, recordFinal := recFin none, extracted := some content }

/-- The worker loop body (lines 55–58): each dequeued item is run to
completion by `processItem`; the loop never aborts on a failed item. -/
def runItems (l : List (Env × CandFile)) : List ItemResult :=
  l.map fun p => processItem p.1 p.2

/-- The behaviour of `this.driveWatcher.extractEpisodeNumber` in the
repository as shipped: the `DriveWatcher` class (driveWatcher.js lines
6–122) declares `initializeAuth`, `checkForNewFiles`,
`matchesNamingPattern`, `downloadFile` and `getLastCheckTime` only — no
`extractEpisodeNumber`.  The property access therefore yields `undefined`
and the call at processingQueue.js line 72 throws a `TypeError`, modelled
as this error outcome. -/
def dwResolveEpisode : String → Except String (Option Nat) :=
  fun _ => .error "TypeError: this.driveWatcher.extractEpisodeNumber is not a function"

/-- `EpisodeRecord` as written by `EpisodeDataLogger.initializeEpisode`
(lines 242–268 of the data logger): status `processing` and all five step
flags false.  The impure `startedAt` timestamp is a parameter. -/
structure EpisodeRecord where
  episodeNumber : Nat
  startedAt : String
  status : JobStatus
  download : Bool
  transcription : Bool
  extraction : Bool
  upload : Bool
  repository : Bool
deriving DecidableEq

/-- The record created by `initializeEpisode`. -/
def initEpisodeRecord (ep : Nat) (startedAt : String) : EpisodeRecord :=
  ⟨ep, startedAt, .processing, false, false, false, false, false⟩

/-- The character set of the placeholder tokens: ASCII uppercase letters,
digits and underscore.  Both placeholders consist exclusively of such
characters, and every literal template chunk adjacent to an interpolated
field starts or ends with a character outside this set, which is what makes
occurrences of a token unable to straddle a chunk boundary. -/
def tokChar (c : Char) : Bool :=
  (65 ≤ c.toNat && c.toNat ≤ 90) || (48 ≤ c.toNat && c.toNat ≤ 57) || c.toNat == 95

/-- Is the first character (if any) outside the character set `cs`? -/
def headBlockedB (cs : Char → Bool) : List Char → Bool
  | [] => true
  | c :: _ => !cs c

/-- Is the last character (if any) outside the character set `cs`? -/
def lastBlockedB (cs : Char → Bool) : List Char → Bool
  | [] => true
  | [c] => !cs c
  | _ :: c :: t => lastBlockedB cs (c :: t)

/-! ## Lemmas: prefix/occurrence/replacement machinery -/

theorem isPrefixCh_cons_cons (p c : Char) (ps cs : List Char) :
    isPrefixCh (p :: ps) (c :: cs) = (p == c && isPrefixCh ps cs) := rfl

theorem occursB_cons (pat : List Char) (c : Char) (t : List Char) :
    occursB pat (c :: t) = (isPrefixCh pat (c :: t) || occursB pat t) := rfl

theorem replaceFirst_cons (pat repl : List Char) (c : Char) (t : List Char) :
    replaceFirst pat repl (c :: t) =
      (if isPrefixCh pat (c :: t) then repl ++ (c :: t).drop pat.length
       else c :: replaceFirst pat repl t) := rfl

theorem beq_false_of_cs_mismatch {cs : Char → Bool} {t h : Char}
    (ht : cs t = true) (hh : cs h = false) : (t == h) = false := by
  rw [beq_eq_false_iff_ne]
  intro heq
  rw [heq, hh] at ht
  cases ht

theorem isPrefixCh_self_append (p z : List Char) : isPrefixCh p (p ++ z) = true := by
  induction p with
  | nil => rfl
  | cons c t ih =>
    show isPrefixCh (c :: t) (c :: (t ++ z)) = true
    rw [isPrefixCh_cons_cons, ih]
    simp

theorem isPrefixCh_append_of_blocked {cs : Char → Bool} {tok y : List Char}
    (hcs : tok.all cs = true) (hy : headBlockedB cs y = true) :
    ∀ x, isPrefixCh tok (x ++ y) = isPrefixCh tok x := by
  induction tok with
  | nil => intro x; rfl
  | cons t ts ih =>
    intro x
    have hts : ts.all cs = true := by
      simp only [List.all_cons, Bool.and_eq_true] at hcs; exact hcs.2
    have ht : cs t = true := by
      simp only [List.all_cons, Bool.and_eq_true] at hcs; exact hcs.1
    cases x with
    | nil =>
      cases y with
      | nil => rfl
      | cons h yt =>
        have hh : cs h = false := by
          simpa [headBlockedB, Bool.not_eq_true'] using hy
        show isPrefixCh (t :: ts) (h :: yt) = isPrefixCh (t :: ts) []
        rw [isPrefixCh_cons_cons, beq_false_of_cs_mismatch ht hh]
        rfl
    | cons c xt =>
      show isPrefixCh (t :: ts) (c :: (xt ++ y)) = isPrefixCh (t :: ts) (c :: xt)
      rw [isPrefixCh_cons_cons, isPrefixCh_cons_cons, ih hts xt]

theorem isPrefixCh_append_left_blocked {cs : Char → Bool} {tok : List Char}
    (hcs : tok.all cs = true) :
    ∀ x y, lastBlockedB cs x = true → x ≠ [] → isPrefixCh tok (x ++ y) = isPrefixCh tok x := by
  induction tok with
  | nil => intro x y _ _; rfl
  | cons t ts ih =>
    intro x y hx hne
    have hts : ts.all cs = true := by
      simp only [List.all_cons, Bool.and_eq_true] at hcs; exact hcs.2
    have ht : cs t = true := by
      simp only [List.all_cons, Bool.and_eq_true] at hcs; exact hcs.1
    cases x with
    | nil => exact absurd rfl hne
    | cons c xt =>
      cases xt with
      | nil =>
        have hcf : cs c = false := by
          simpa [lastBlockedB, Bool.not_eq_true'] using hx
        show isPrefixCh (t :: ts) (c :: y) = isPrefixCh (t :: ts) (c :: [])
        rw [isPrefixCh_cons_cons, isPrefixCh_cons_cons,
          beq_false_of_cs_mismatch ht hcf]
        simp
      | cons d dt =>
        have hx2 : lastBlockedB cs (d :: dt) = true := by
          simpa [lastBlockedB] using hx
        show isPrefixCh (t :: ts) (c :: ((d :: dt) ++ y)) = isPrefixCh (t :: ts) (c :: d :: dt)
        rw [isPrefixCh_cons_cons, isPrefixCh_cons_cons,
          ih hts (d :: dt) y hx2 (by simp)]

theorem occursB_nil_of_ne {tok : List Char} (h : tok ≠ []) : occursB tok [] = false := by
  cases tok with
  | nil => exact absurd rfl h
  | cons t ts => rfl

theorem occursB_append_of_head_blocked {cs : Char → Bool} {tok y : List Char}
    (hcs : tok.all cs = true) (hy : headBlockedB cs y = true) :
    ∀ x, occursB tok (x ++ y) = (occursB tok x || occursB tok y) := by
  intro x
  induction x with
  | nil =>
    cases tok with
    | nil =>
      cases y with
      | nil => rfl
      | cons h t => simp [occursB, isPrefixCh]
    | cons t ts => simp [occursB, isPrefixCh]
  | cons c xt ih =>
    show occursB tok (c :: (xt ++ y)) = (occursB tok (c :: xt) || occursB tok y)
    rw [occursB_cons, occursB_cons,
      show c :: (xt ++ y) = (c :: xt) ++ y from rfl,
      isPrefixCh_append_of_blocked hcs hy (c :: xt), ih, Bool.or_assoc]

theorem occursB_append_of_last_blocked {cs : Char → Bool} {tok : List Char}
    (hcs : tok.all cs = true) :
    ∀ x y, lastBlockedB cs x = true → occursB tok (x ++ y) = (occursB tok x || occursB tok y) := by
  intro x
  induction x with
  | nil =>
    intro y _
    cases tok with
    | nil =>
      cases y with
      | nil => rfl
      | cons h t => simp [occursB, isPrefixCh]
    | cons t ts => simp [occursB, isPrefixCh]
  | cons c xt ih =>
    intro y hx
    cases xt with
    | nil =>
      cases tok with
      | nil => simp [occursB, isPrefixCh]
      | cons t ts =>
        have hcf : cs c = false := by
          simpa [lastBlockedB, Bool.not_eq_true'] using hx
        have ht : cs t = true := by
          simp only [List.all_cons, Bool.and_eq_true] at hcs; exact hcs.1
        have hne2 : (t == c) = false := beq_false_of_cs_mismatch ht hcf
        show occursB (t :: ts) (c :: y) = (occursB (t :: ts) [c] || occursB (t :: ts) y)
        rw [occursB_cons, occursB_cons]
        cases y with
        | nil => simp [isPrefixCh, occursB, hne2]
        | cons e et =>
          rw [isPrefixCh_cons_cons, isPrefixCh_cons_cons, hne2]
          simp [occursB, isPrefixCh]
    | cons d dt =>
      have hx2 : lastBlockedB cs (d :: dt) = true := by
        simpa [lastBlockedB] using hx
      show occursB tok (c :: ((d :: dt) ++ y)) = (occursB tok (c :: d :: dt) || occursB tok y)
      rw [occursB_cons, occursB_cons,
        show c :: ((d :: dt) ++ y) = (c :: d :: dt) ++ y from rfl,
        isPrefixCh_append_left_blocked hcs (c :: d :: dt) y
          (by simpa [lastBlockedB] using hx2) (by simp),
        ih y hx2, Bool.or_assoc]

theorem occursB_append_right_of {tok x y : List Char} (h : occursB tok y = true) :
    occursB tok (x ++ y) = true := by
  induction x with
  | nil => simpa using h
  | cons c xt ih =>
    show occursB tok (c :: (xt ++ y)) = true
    rw [occursB_cons, ih]
    simp

theorem occursB_of_isPrefixCh {tok s : List Char} (h : isPrefixCh tok s = true) :
    occursB tok s = true := by
  cases s with
  | nil => simpa [occursB] using h
  | cons c t => simp [occursB, h]

/-- `replaceFirst` skips a prefix in which the pattern does not occur and
whose boundary with the remainder is blocked. -/
theorem replaceFirst_append_of_clean {cs : Char → Bool} {tok repl : List Char}
    (hcs : tok.all cs = true) :
    ∀ A Z, occursB tok A = false → (lastBlockedB cs A = true ∨ headBlockedB cs Z = true) →
      replaceFirst tok repl (A ++ Z) = A ++ replaceFirst tok repl Z := by
  intro A
  induction A with
  | nil => intro Z _ _; rfl
  | cons c At ih =>
    intro Z hA hb
    rw [occursB_cons, Bool.or_eq_false_iff] at hA
    have hApre : isPrefixCh tok (c :: At) = false := hA.1
    have hAt : occursB tok At = false := hA.2
    have hguard : isPrefixCh tok (c :: (At ++ Z)) = false := by
      have := hApre
      rcases hb with hl | hr
      · rw [show c :: (At ++ Z) = (c :: At) ++ Z from rfl,
          isPrefixCh_append_left_blocked hcs (c :: At) Z hl (by simp)]
        exact hApre
      · rw [show c :: (At ++ Z) = (c :: At) ++ Z from rfl,
          isPrefixCh_append_of_blocked hcs hr (c :: At)]
        exact hApre
    show replaceFirst tok repl (c :: (At ++ Z)) = c :: (At ++ replaceFirst tok repl Z)
    rw [replaceFirst_cons, hguard]
    simp only [Bool.false_eq_true, if_false]
    congr 1
    cases At with
    | nil =>
      exact ih Z (by
        rcases tok with _ | ⟨t, ts⟩
        · cases hApre
        · rfl) (Or.inl rfl)
    | cons d dt =>
      have hb2 : lastBlockedB cs (d :: dt) = true ∨ headBlockedB cs Z = true := by
        rcases hb with hl | hr
        · exact Or.inl (by simpa [lastBlockedB] using hl)
        · exact Or.inr hr
      exact ih Z hAt hb2

/-- `replaceFirst` fires on an exact pattern occurrence at the head. -/
theorem replaceFirst_head {tok repl B : List Char} (h : tok ≠ []) :
    replaceFirst tok repl (tok ++ B) = repl ++ B := by
  cases tok with
  | nil => exact absurd rfl h
  | cons t ts =>
    have hp : isPrefixCh (t :: ts) (t :: (ts ++ B)) = true := isPrefixCh_self_append (t :: ts) B
    show replaceFirst (t :: ts) repl (t :: (ts ++ B)) = repl ++ B
    rw [replaceFirst_cons, hp]
    simp only [if_true]
    congr 1
    exact List.drop_left (t :: ts) B

/-- Pattern elements occur in any string the pattern prefixes. -/
theorem mem_of_isPrefixCh {tok s : List Char} (h : isPrefixCh tok s = true) :
    ∀ a ∈ tok, a ∈ s := by
  induction tok generalizing s with
  | nil => intro a ha; cases ha
  | cons t ts ih =>
    cases s with
    | nil => cases h
    | cons c cs =>
      rw [isPrefixCh_cons_cons, Bool.and_eq_true, beq_iff_eq] at h
      intro a ha
      rcases List.mem_cons.mp ha with rfl | hmem
      · rw [h.1]; exact List.mem_cons_self _ _
      · exact List.mem_cons_of_mem _ (ih h.2 a hmem)

/-- A pattern containing a character that the string lacks cannot occur in
the string. -/
theorem occursB_eq_false_of_missing {tok : List Char} {a : Char}
    (ha : a ∈ tok) : ∀ s, (∀ c ∈ s, c ≠ a) → occursB tok s = false := by
  intro s
  induction s with
  | nil =>
    intro _
    cases tok with
    | nil => cases ha
    | cons t ts => rfl
  | cons c t ih =>
    intro hs
    rw [occursB_cons, Bool.or_eq_false_iff]
    constructor
    · rcases Bool.eq_false_or_eq_true (isPrefixCh tok (c :: t)) with htr | hf
      · exact absurd rfl (hs a (mem_of_isPrefixCh htr a ha))
      · exact hf
    · exact ih fun x hx => hs x (List.mem_cons_of_mem _ hx)

theorem lastBlockedB_append {cs : Char → Bool} {x y : List Char} (hy : y ≠ []) :
    lastBlockedB cs (x ++ y) = lastBlockedB cs y := by
  induction x with
  | nil => rfl
  | cons c xt ih =>
    show lastBlockedB cs (c :: (xt ++ y)) = lastBlockedB cs y
    cases hx : xt ++ y with
    | nil =>
      exfalso
      rcases List.append_eq_nil.mp hx with ⟨_, h2⟩
      exact hy h2
    | cons d dt =>
      have h2 : lastBlockedB cs (c :: d :: dt) = lastBlockedB cs (d :: dt) := by
        simp [lastBlockedB]
      rw [h2, ← hx]
      exact ih

theorem headBlockedB_append {cs : Char → Bool} {x y : List Char} (hx : x ≠ []) :
    headBlockedB cs (x ++ y) = headBlockedB cs x := by
  cases x with
  | nil => exact absurd rfl hx
  | cons c t => rfl

/-! ## C1 — the naming-pattern classifier -/

theorem ciPfx_cons_cons (p c : Char) (ps cs : List Char) :
    ciPfx (p :: ps) (c :: cs) = (lowerAscii p == lowerAscii c && ciPfx ps cs) := rfl

theorem ciPfx_self_append (p r : List Char) : ciPfx p (p ++ r) = true := by
  induction p with
  | nil => rfl
  | cons c t ih =>
    show ciPfx (c :: t) (c :: (t ++ r)) = true
    rw [ciPfx_cons_cons, ih]
    simp

/-- `C1` (counterexample): the claim asserts that the classifier accepts
every name of the form `<tag>-<two-or-more-digit-number>[<variant-suffix>].<ext>`,
transcript-variant names carrying the suffix included.  The watcher regex
`^cosmic-\d{2}\.(mp3|flac|wav|m4a)$/i` rejects both a suffix-carrying
transcript-variant name and a three-digit episode number (it admits exactly
two digits and no suffix), while accepting the plain two-digit form. -/
theorem c1_counterexample :
    matchesNamingPattern "cosmic-06-no-mix.mp3" = false
    ∧ matchesNamingPattern "cosmic-123.mp3" = false
    ∧ matchesNamingPattern "cosmic-06.mp3" = true := by
  refine ⟨?_, ?_, ?_⟩ <;> decide

/-- `C1` (amended): a filename is accepted as a pipeline candidate iff,
after ASCII case folding, it is exactly `cosmic-` followed by two digits, a
dot, and an extension from the whitelist `{mp3, flac, wav, m4a}` — the tag
is the hardcoded `cosmic`, the number has exactly two digits and no variant
suffix is admitted; and on such names the extractor's episode-number regex
returns the integer parse of the two-digit group with the leading zero
stripped.  Rejection is a plain `false` — no error is raised. -/
theorem c1_amended :
    (∀ name : String,
      matchesNamingPattern name = true ↔
        ∃ a b ext, a.isDigit = true ∧ b.isDigit = true ∧
          (ext = "mp3".data ∨ ext = "flac".data ∨ ext = "wav".data ∨ ext = "m4a".data) ∧
          name.data.map lowerAscii = "cosmic-".data ++ a :: b :: '.' :: ext)
    ∧ (∀ (a b : Char) (ext : List Char), a.isDigit = true → b.isDigit = true →
        firstMatchNum "cosmic".data ("cosmic-".data ++ a :: b :: '.' :: ext) =
          some (10 * (a.toNat - 48) + (b.toNat - 48))) := by
  constructor
  · intro name
    constructor
    · intro h
      unfold matchesNamingPattern at h
      unfold mnpL at h
      split at h
      · rename_i a b rest heq
        rw [Bool.and_eq_true, Bool.and_eq_true] at h
        refine ⟨a, b, rest, h.1.1, h.1.2, ?_, heq⟩
        have h4 := h.2
        unfold extOK at h4
        rw [Bool.or_eq_true, Bool.or_eq_true, Bool.or_eq_true] at h4
        rcases h4 with ((h4 | h4) | h4) | h4 <;>
          simp only [beq_iff_eq] at h4 <;> tauto
      · cases h
    · rintro ⟨a, b, ext, ha, hb, hext, heq⟩
      unfold matchesNamingPattern
      rw [heq]
      have hshape : "cosmic-".data ++ a :: b :: '.' :: ext =
          'c' :: 'o' :: 's' :: 'm' :: 'i' :: 'c' :: '-' :: a :: b :: '.' :: ext := rfl
      rw [hshape]
      show (a.isDigit && b.isDigit && extOK ext) = true
      rw [ha, hb]
      rcases hext with rfl | rfl | rfl | rfl <;> rfl
  · intro a b ext ha hb
    have hshape : "cosmic-".data ++ a :: b :: '.' :: ext =
        "cosmic".data ++ ('-' :: a :: b :: '.' :: ext) := rfl
    rw [hshape]
    have hfull : "cosmic".data ++ ('-' :: a :: b :: '.' :: ext) =
        'c' :: ("osmic".data ++ ('-' :: a :: b :: '.' :: ext)) := rfl
    rw [hfull]
    show (match matchAt "cosmic".data ('c' :: ("osmic".data ++ ('-' :: a :: b :: '.' :: ext))) with
          | some n => some n
          | none => firstMatchNum "cosmic".data ("osmic".data ++ ('-' :: a :: b :: '.' :: ext))) =
        some (10 * (a.toNat - 48) + (b.toNat - 48))
    have hci : ciPfx "cosmic".data ("cosmic".data ++ ('-' :: a :: b :: '.' :: ext)) = true :=
      ciPfx_self_append _ _
    have hdrop : ("cosmic".data ++ ('-' :: a :: b :: '.' :: ext)).drop ("cosmic".data).length =
        '-' :: a :: b :: '.' :: ext := List.drop_left _ _
    have hmatch : matchAt "cosmic".data ("cosmic".data ++ ('-' :: a :: b :: '.' :: ext)) =
        some (digitsToNat [a, b]) := by
      unfold matchAt
      rw [hci]
      simp only [if_true]
      rw [hdrop]
      have htake : (a :: b :: '.' :: ext).takeWhile Char.isDigit = [a, b] := by
        rw [List.takeWhile_cons, ha]
        simp only [if_true]
        rw [List.takeWhile_cons, hb]
        simp only [if_true]
        rw [List.takeWhile_cons]
        have hdot : ('.'.isDigit) = false := by decide
        rw [hdot]
        simp
      simp only [htake]
      simp
    rw [show ('c' :: ("osmic".data ++ ('-' :: a :: b :: '.' :: ext))) =
        "cosmic".data ++ ('-' :: a :: b :: '.' :: ext) from rfl] at *
    rw [hmatch]
    have : digitsToNat [a, b] = 10 * (a.toNat - 48) + (b.toNat - 48) := by
      unfold digitsToNat
      simp [List.foldl]
      ring
    rw [this]

/-- `C1` (witness): the amended parse clause evaluated at `cosmic-06.mp3`:
`06` parses to `6`. -/
theorem c1_witness :
    firstMatchNum "cosmic".data ("cosmic-".data ++ '0' :: '6' :: '.' :: "mp3".data) =
      some (10 * ('0'.toNat - 48) + ('6'.toNat - 48)) :=
  c1_amended.2 '0' '6' "mp3".data (by decide) (by decide)

/-! ## C2 — transcript → full-variant filename derivation -/

/-- The characters of the variant suffix `-no-mix`. -/
def noMixChar (c : Char) : Bool :=
  c.toNat == 45 || c.toNat == 110 || c.toNat == 111 || c.toNat == 109 ||
  c.toNat == 105 || c.toNat == 120

/-- `C2`: for a transcript-variant filename `<tag>-<num>-no-mix.<ext>` whose
variant suffix does not already occur in the `<tag>-<num>` part and whose
`<tag>-<num>` part ends in a character outside the suffix alphabet (both
hold for any digit-final episode stem, e.g. `show-06`), the derivation of
`findFullEpisodeFile` strips exactly the suffix, producing
`<tag>-<num>.<ext>`.  In particular, for `show-06-no-mix.mp3` with tag
`show`: the derived full-variant name is `show-06.mp3`, the extractor
resolves episode number `6`, and the name differs from its derived base,
which is what marks it as the transcript variant. -/
theorem c2_derivation (tag num ext : List Char)
    (hno : occursB "-no-mix".data (tag ++ ('-' :: num)) = false)
    (hlast : lastBlockedB noMixChar (tag ++ ('-' :: num)) = true) :
    findFullBase ⟨(tag ++ ('-' :: num)) ++ ("-no-mix".data ++ ('.' :: ext))⟩ =
      ⟨(tag ++ ('-' :: num)) ++ ('.' :: ext)⟩
    ∧ findFullBase "show-06-no-mix.mp3" = "show-06.mp3"
    ∧ extractEpisodeNum "show" "show-06-no-mix.mp3" = some 6
    ∧ findFullBase "show-06-no-mix.mp3" ≠ "show-06-no-mix.mp3" := by
  refine ⟨?_, by decide, by decide, by decide⟩
  show (⟨replaceFirst "-no-mix".data []
      ((tag ++ ('-' :: num)) ++ ("-no-mix".data ++ ('.' :: ext)))⟩ : String) =
    ⟨(tag ++ ('-' :: num)) ++ ('.' :: ext)⟩
  apply congrArg String.mk
  rw [@replaceFirst_append_of_clean noMixChar "-no-mix".data [] (by decide) (tag ++ ('-' :: num))
      ("-no-mix".data ++ ('.' :: ext)) hno (Or.inl hlast)]
  rw [replaceFirst_head (by decide)]
  simp

/-- `C2` (witness): the theorem applied to the spec's scenario
`show-06-no-mix.mp3` with tag `show`. -/
theorem c2_witness :
    findFullBase ⟨("show".data ++ ('-' :: "06".data)) ++ ("-no-mix".data ++ ('.' :: "mp3".data))⟩ =
      ⟨("show".data ++ ('-' :: "06".data)) ++ ('.' :: "mp3".data)⟩
    ∧ findFullBase "show-06-no-mix.mp3" = "show-06.mp3"
    ∧ extractEpisodeNum "show" "show-06-no-mix.mp3" = some 6
    ∧ findFullBase "show-06-no-mix.mp3" ≠ "show-06-no-mix.mp3" :=
  c2_derivation "show".data "06".data "mp3".data (by decide) (by decide)

/-! ## Slugify lemmas (C7, C8) -/

/-- The character set a slug output is drawn from: `a`–`z`, `0`–`9`, `-`. -/
def allowedOutB (c : Char) : Bool :=
  (97 ≤ c.toNat && c.toNat ≤ 122) || (48 ≤ c.toNat && c.toNat ≤ 57) || c.toNat == 45

/-- No two adjacent occurrences of the character `r`. -/
def noRR (r : Char) : List Char → Bool
  | [] => true
  | [_] => true
  | a :: b :: t => !(a == r && b == r) && noRR r (b :: t)

theorem collapseRuns_mem {p : Char → Bool} {r : Char} :
    ∀ (l : List Char) (b : Bool) (c : Char), c ∈ collapseRuns p r b l →
      c = r ∨ (c ∈ l ∧ p c = false) := by
  intro l
  induction l with
  | nil => intro b c h; cases h
  | cons d t ih =>
    intro b c h
    by_cases hd : p d = true
    · rw [show collapseRuns p r b (d :: t) =
          (if p d then (if b then collapseRuns p r true t
                        else r :: collapseRuns p r true t)
           else d :: collapseRuns p r false t) from rfl, hd] at h
      simp only [if_true] at h
      cases b with
      | true =>
        simp only [if_true] at h
        rcases ih true c h with h1 | ⟨h2, h3⟩
        · exact Or.inl h1
        · exact Or.inr ⟨List.mem_cons_of_mem _ h2, h3⟩
      | false =>
        simp only [Bool.false_eq_true, if_false] at h
        rcases List.mem_cons.mp h with rfl | h'
        · exact Or.inl rfl
        · rcases ih true c h' with h1 | ⟨h2, h3⟩
          · exact Or.inl h1
          · exact Or.inr ⟨List.mem_cons_of_mem _ h2, h3⟩
    · rw [Bool.not_eq_true] at hd
      rw [show collapseRuns p r b (d :: t) =
          (if p d then (if b then collapseRuns p r true t
                        else r :: collapseRuns p r true t)
           else d :: collapseRuns p r false t) from rfl, hd] at h
      simp only [Bool.false_eq_true, if_false] at h
      rcases List.mem_cons.mp h with rfl | h'
      · exact Or.inr ⟨List.mem_cons_self _ _, hd⟩
      · rcases ih false c h' with h1 | ⟨h2, h3⟩
        · exact Or.inl h1
        · exact Or.inr ⟨List.mem_cons_of_mem _ h2, h3⟩

theorem mem_of_mem_trimL {l : List Char} {c : Char} (h : c ∈ trimL l) : c ∈ l := by
  unfold trimL at h
  rw [List.mem_reverse] at h
  have h2 := (List.dropWhile_sublist (l := (l.dropWhile isSpaceCh).reverse)
    (p := isSpaceCh)).subset h
  rw [List.mem_reverse] at h2
  exact (List.dropWhile_sublist (l := l) (p := isSpaceCh)).subset h2

/-- Every character of a slug is a lowercase letter, a digit or a hyphen. -/
theorem slug_chars {s : List Char} : ∀ c ∈ slugL s, allowedOutB c = true := by
  intro c hmem
  unfold slugL at hmem
  rcases collapseRuns_mem _ _ c hmem with rfl | ⟨h1, _⟩
  · decide
  · rcases collapseRuns_mem _ _ c h1 with rfl | ⟨h2, hsp⟩
    · decide
    · have h3 := mem_of_mem_trimL h2
      rw [List.mem_filter] at h3
      have hall : isAllowedCh c = true := h3.2
      simp only [isAllowedCh, isSpaceCh, Bool.or_eq_true, Bool.and_eq_true,
        decide_eq_true_eq, beq_iff_eq] at hall
      simp only [isSpaceCh, Bool.or_eq_false_iff, Bool.and_eq_false_iff,
        decide_eq_false_iff_not, beq_eq_false_iff_ne, ne_eq] at hsp
      simp only [allowedOutB, Bool.or_eq_true, Bool.and_eq_true,
        decide_eq_true_eq, beq_iff_eq]
      omega

theorem charLower_fixed {c : Char} (h : allowedOutB c = true) : charLower c = c := by
  simp only [allowedOutB, Bool.or_eq_true, Bool.and_eq_true, decide_eq_true_eq,
    beq_iff_eq] at h
  unfold charLower
  split_ifs with h1 h2 h3
  · exfalso
    simp only [Bool.and_eq_true, decide_eq_true_eq] at h1
    omega
  · exfalso
    simp only [Bool.and_eq_true, Bool.not_eq_true', decide_eq_true_eq, beq_eq_false_iff_ne] at h2
    omega
  · exfalso
    simp only [beq_iff_eq] at h3
    omega
  · rfl

theorem accentFoldCh_fixed {c : Char} (h : allowedOutB c = true) : accentFoldCh c = c := by
  simp only [allowedOutB, Bool.or_eq_true, Bool.and_eq_true, decide_eq_true_eq,
    beq_iff_eq] at h
  unfold accentFoldCh
  split_ifs with h1 h2 h3 h4 h5 h6 h7 <;>
    first
    | rfl
    | (exfalso
       simp only [Bool.or_eq_true, beq_iff_eq] at *
       omega)

theorem isAllowedCh_of_allowedOut {c : Char} (h : allowedOutB c = true) :
    isAllowedCh c = true := by
  simp only [allowedOutB, Bool.or_eq_true, Bool.and_eq_true, decide_eq_true_eq,
    beq_iff_eq] at h
  simp only [isAllowedCh, Bool.or_eq_true, Bool.and_eq_true, decide_eq_true_eq, beq_iff_eq]
  tauto

theorem isSpaceCh_of_allowedOut {c : Char} (h : allowedOutB c = true) :
    isSpaceCh c = false := by
  simp only [allowedOutB, Bool.or_eq_true, Bool.and_eq_true, decide_eq_true_eq,
    beq_iff_eq] at h
  simp only [isSpaceCh, Bool.or_eq_false_iff, Bool.and_eq_false_iff,
    decide_eq_false_iff_not, beq_eq_false_iff_ne, ne_eq]
  omega

theorem map_id_of {f : Char → Char} {l : List Char} (h : ∀ c ∈ l, f c = c) :
    l.map f = l := by
  induction l with
  | nil => rfl
  | cons c t ih =>
    rw [List.map_cons, h c (List.mem_cons_self _ _),
      ih fun x hx => h x (List.mem_cons_of_mem _ hx)]

theorem filter_id_of {p : Char → Bool} {l : List Char} (h : ∀ c ∈ l, p c = true) :
    l.filter p = l := by
  induction l with
  | nil => rfl
  | cons c t ih =>
    rw [List.filter_cons, h c (List.mem_cons_self _ _)]
    simp only [if_true]
    rw [ih fun x hx => h x (List.mem_cons_of_mem _ hx)]

theorem dropWhile_id_of {p : Char → Bool} {l : List Char} (h : ∀ c ∈ l, p c = false) :
    l.dropWhile p = l := by
  cases l with
  | nil => rfl
  | cons c t =>
    rw [List.dropWhile_cons, h c (List.mem_cons_self _ _)]
    simp

theorem trimL_id_of {l : List Char} (h : ∀ c ∈ l, isSpaceCh c = false) : trimL l = l := by
  unfold trimL
  rw [dropWhile_id_of h,
    dropWhile_id_of fun c hc => h c (List.mem_reverse.mp hc), List.reverse_reverse]

theorem collapseRuns_id_of_nop {p : Char → Bool} {r : Char} {l : List Char}
    (h : ∀ c ∈ l, p c = false) : collapseRuns p r false l = l := by
  induction l with
  | nil => rfl
  | cons c t ih =>
    rw [show collapseRuns p r false (c :: t) =
        (if p c then r :: collapseRuns p r true t
         else c :: collapseRuns p r false t) from rfl,
      h c (List.mem_cons_self _ _)]
    simp only [Bool.false_eq_true, if_false]
    rw [ih fun x hx => h x (List.mem_cons_of_mem _ hx)]

theorem collapseRuns_true_head {p : Char → Bool} {r : Char} (hpr : p r = true) :
    ∀ l, headBlockedB (fun c => c == r) (collapseRuns p r true l) = true := by
  intro l
  induction l with
  | nil => rfl
  | cons c t ih =>
    by_cases hc : p c = true
    · rw [show collapseRuns p r true (c :: t) =
          (if p c then collapseRuns p r true t
           else c :: collapseRuns p r false t) from rfl, hc]
      simpa using ih
    · rw [Bool.not_eq_true] at hc
      rw [show collapseRuns p r true (c :: t) =
          (if p c then collapseRuns p r true t
           else c :: collapseRuns p r false t) from rfl, hc]
      simp only [Bool.false_eq_true, if_false]
      show (!(c == r)) = true
      have : (c == r) = false := by
        rw [beq_eq_false_iff_ne]
        intro heq
        rw [heq, hpr] at hc
        cases hc
      rw [this]
      rfl

theorem noRR_cons_of {r c : Char} {X : List Char} (hc : (c == r) = false)
    (hX : noRR r X = true) : noRR r (c :: X) = true := by
  cases X with
  | nil => rfl
  | cons x xs =>
    show (!(c == r && x == r) && noRR r (x :: xs)) = true
    rw [hc, hX]
    rfl

theorem noRR_cons_r {r : Char} {X : List Char}
    (hhead : headBlockedB (fun c => c == r) X = true)
    (hX : noRR r X = true) : noRR r (r :: X) = true := by
  cases X with
  | nil => rfl
  | cons x xs =>
    have hx : (x == r) = false := by
      simpa [headBlockedB, Bool.not_eq_true'] using hhead
    show (!(r == r && x == r) && noRR r (x :: xs)) = true
    rw [hx, hX]
    simp

theorem noRR_tail {r c : Char} {X : List Char} (h : noRR r (c :: X) = true) :
    noRR r X = true := by
  cases X with
  | nil => rfl
  | cons x xs =>
    have : (!(c == r && x == r) && noRR r (x :: xs)) = true := h
    rw [Bool.and_eq_true] at this
    exact this.2

theorem noRR_head_of_r {r : Char} {X : List Char} (h : noRR r (r :: X) = true) :
    headBlockedB (fun c => c == r) X = true := by
  cases X with
  | nil => rfl
  | cons x xs =>
    have : (!(r == r && x == r) && noRR r (x :: xs)) = true := h
    rw [Bool.and_eq_true] at this
    have h1 := this.1
    rw [Bool.not_eq_true', Bool.and_eq_false_iff] at h1
    rcases h1 with h1 | h1
    · rw [beq_self_eq_true] at h1; cases h1
    · show (!(x == r)) = true
      rw [h1]
      rfl

theorem collapseRuns_noRR {p : Char → Bool} {r : Char} (hpr : p r = true) :
    ∀ (l : List Char) (b : Bool), noRR r (collapseRuns p r b l) = true := by
  intro l
  induction l with
  | nil => intro b; rfl
  | cons c t ih =>
    intro b
    by_cases hc : p c = true
    · rw [show collapseRuns p r b (c :: t) =
          (if p c then (if b then collapseRuns p r true t
                        else r :: collapseRuns p r true t)
           else c :: collapseRuns p r false t) from rfl, hc]
      simp only [if_true]
      cases b with
      | true => simpa using ih true
      | false =>
        simp only [Bool.false_eq_true, if_false]
        exact noRR_cons_r (collapseRuns_true_head hpr t) (ih true)
    · rw [Bool.not_eq_true] at hc
      rw [show collapseRuns p r b (c :: t) =
          (if p c then (if b then collapseRuns p r true t
                        else r :: collapseRuns p r true t)
           else c :: collapseRuns p r false t) from rfl, hc]
      simp only [Bool.false_eq_true, if_false]
      have hcr : (c == r) = false := by
        rw [beq_eq_false_iff_ne]
        intro heq
        rw [heq, hpr] at hc
        cases hc
      exact noRR_cons_of hcr (ih false)

theorem collapseRuns_beq_id {r : Char} :
    ∀ l, noRR r l = true → collapseRuns (fun c => c == r) r false l = l := by
  intro l
  induction l with
  | nil => intro _; rfl
  | cons c t ih =>
    intro h
    by_cases hc : (c == r) = true
    · have hcr : c = r := by simpa using hc
      rw [show collapseRuns (fun c => c == r) r false (c :: t) =
          (if c == r then r :: collapseRuns (fun c => c == r) r true t
           else c :: collapseRuns (fun c => c == r) r false t) from rfl, hc]
      simp only [if_true]
      rw [hcr] at h ⊢
      congr 1
      cases t with
      | nil => rfl
      | cons d dt =>
        have hd : (d == r) = false := by
          have := noRR_head_of_r h
          simpa [headBlockedB, Bool.not_eq_true'] using this
        have hstep : collapseRuns (fun c => c == r) r true (d :: dt) =
            collapseRuns (fun c => c == r) r false (d :: dt) := by
          rw [show collapseRuns (fun c => c == r) r true (d :: dt) =
              (if d == r then collapseRuns (fun c => c == r) r true dt
               else d :: collapseRuns (fun c => c == r) r false dt) from rfl,
            show collapseRuns (fun c => c == r) r false (d :: dt) =
              (if d == r then r :: collapseRuns (fun c => c == r) r true dt
               else d :: collapseRuns (fun c => c == r) r false dt) from rfl, hd]
          simp
        rw [hstep]
        exact ih (noRR_tail h)
    · rw [Bool.not_eq_true] at hc
      rw [show collapseRuns (fun c => c == r) r false (c :: t) =
          (if c == r then r :: collapseRuns (fun c => c == r) r true t
           else c :: collapseRuns (fun c => c == r) r false t) from rfl, hc]
      simp only [Bool.false_eq_true, if_false]
      rw [ih (noRR_tail h)]

/-- A character list drawn from the slug alphabet with no repeated hyphens
is a fixed point of `slugL`. -/
theorem slugL_fixed {l : List Char} (hall : ∀ c ∈ l, allowedOutB c = true)
    (hrr : noRR '-' l = true) : slugL l = l := by
  unfold slugL
  rw [map_id_of fun c hc => charLower_fixed (hall c hc),
    map_id_of fun c hc => accentFoldCh_fixed (hall c hc),
    filter_id_of fun c hc => isAllowedCh_of_allowedOut (hall c hc),
    trimL_id_of fun c hc => isSpaceCh_of_allowedOut (hall c hc),
    collapseRuns_id_of_nop fun c hc => isSpaceCh_of_allowedOut (hall c hc),
    collapseRuns_beq_id l hrr]

/-- `C7`: `RepoUpdater.slugify` is idempotent — slugifying an
already-slugified title returns it unchanged, for every title string. -/
theorem c7_slugify_idempotent : ∀ x : String, slugify (slugify x) = slugify x := by
  intro x
  show (⟨slugL (slugL x.data)⟩ : String) = ⟨slugL x.data⟩
  apply congrArg String.mk
  exact slugL_fixed (fun c hc => slug_chars c hc)
    (collapseRuns_noRR (by decide) _ false)

/-- `C8` (counterexample): the claim asserts that every accented Latin
letter is folded to its base letter rather than deleted.  `slugify` only
folds the fifteen characters of its lookup table; `ó` (and likewise `ñ`)
is not among them and is deleted by the `[^a-z0-9\s-]` filter, so
`slugify "ó"` is empty instead of `"o"`. -/
theorem c8_counterexample :
    slugify "ó" ≠ "o" ∧ slugify "ó" = "" ∧ slugify "ñ" = "" := by
  refine ⟨by decide, by decide, by decide⟩

/-- `C8` (amended): `slugify` first lowercases (ASCII and Latin-1), then
folds exactly the fifteen accented letters à â ä è é ê ë ï î ô ù û ü ÿ ç
(hence also their uppercase forms) to their base letters; every other
accented Latin letter is stripped by the `[^a-z0-9\s-]` filter rather than
folded.  It then trims, collapses whitespace runs to single hyphens and
collapses repeated hyphens: every output character is in `[a-z0-9-]` and
the output never contains two adjacent hyphens. -/
theorem c8_amended :
    ([("à", "a"), ("â", "a"), ("ä", "a"), ("è", "e"), ("é", "e"), ("ê", "e"),
      ("ë", "e"), ("ï", "i"), ("î", "i"), ("ô", "o"), ("ù", "u"), ("û", "u"),
      ("ü", "u"), ("ÿ", "y"), ("ç", "c"),
      ("À", "a"), ("Â", "a"), ("Ä", "a"), ("È", "e"), ("É", "e"), ("Ê", "e"),
      ("Ë", "e"), ("Ï", "i"), ("Î", "i"), ("Ô", "o"), ("Ù", "u"), ("Û", "u"),
      ("Ü", "u"), ("Ÿ", "y"), ("Ç", "c")].all
        fun pq => slugify pq.1 == pq.2) = true
    ∧ slugify "ó" = "" ∧ slugify "ñ" = ""
    ∧ slugify "AbC" = "abc"
    ∧ slugify "a!b@c" = "abc"
    ∧ slugify "a \t b" = "a-b"
    ∧ slugify "a--b" = "a-b"
    ∧ slugify "  hi  " = "hi"
    ∧ (∀ x : String, (slugify x).data.all allowedOutB = true)
    ∧ (∀ x : String, noRR '-' (slugify x).data = true) := by
  refine ⟨by decide, by decide, by decide, by decide, by decide, by decide,
    by decide, by decide, ?_, ?_⟩
  · intro x
    rw [List.all_eq_true]
    intro c hc
    exact slug_chars c hc
  · intro x
    exact collapseRuns_noRR (by decide) _ false

/-! ## Queue lemmas (C5, C10) -/

theorem qStep_triple (s : QState) (h : s.processing = false → s.inFlight = none)
    (e : QEvent) :
    (qStep s e).processed ++ optList (qStep s e).inFlight ++ (qStep s e).queue =
      (s.processed ++ optList s.inFlight ++ s.queue) ++
        (match e with | .enqueue j => [j] | .finish => []) := by
  obtain ⟨Q, F, P, B⟩ := s
  cases e with
  | enqueue j =>
    cases B with
    | true => simp [qStep, List.append_assoc]
    | false =>
      have hF : F = none := h rfl
      subst hF
      cases Q with
      | nil => simp [qStep, optList]
      | cons q qt => simp [qStep, optList, List.append_assoc]
  | finish =>
    cases F with
    | none => simp [qStep]
    | some j =>
      cases Q with
      | nil => simp [qStep, optList]
      | cons x rest => simp [qStep, optList, List.append_assoc]

theorem qStep_wf (s : QState) (h : s.processing = false → s.inFlight = none)
    (e : QEvent) : (qStep s e).processing = false → (qStep s e).inFlight = none := by
  obtain ⟨Q, F, P, B⟩ := s
  cases e with
  | enqueue j =>
    cases B with
    | true => intro hfalse; cases hfalse
    | false =>
      have hF : F = none := h rfl
      subst hF
      cases Q with
      | nil => intro hfalse; cases hfalse
      | cons q qt => intro hfalse; cases hfalse
  | finish =>
    cases F with
    | none => exact h
    | some j =>
      cases Q with
      | nil => intro _; rfl
      | cons x rest => intro hfalse; cases hfalse

theorem qInv : ∀ (tr : List QEvent) (s : QState),
    (s.processing = false → s.inFlight = none) →
    ((tr.foldl qStep s).processed ++ optList (tr.foldl qStep s).inFlight ++
        (tr.foldl qStep s).queue =
      (s.processed ++ optList s.inFlight ++ s.queue) ++ enqueuedIds tr)
    ∧ ((tr.foldl qStep s).processing = false → (tr.foldl qStep s).inFlight = none) := by
  intro tr
  induction tr with
  | nil =>
    intro s h
    exact ⟨by simp [enqueuedIds], h⟩
  | cons e t ih =>
    intro s h
    have hstep := qStep_triple s h e
    have hwf := qStep_wf s h e
    have ⟨ih1, ih2⟩ := ih (qStep s e) hwf
    constructor
    · rw [List.foldl_cons, ih1, hstep]
      cases e with
      | enqueue j => simp [enqueuedIds, List.append_assoc]
      | finish => simp [enqueuedIds]
    · rw [List.foldl_cons]
      exact ih2

/-- `C5`: the work queue is FIFO with a single worker.  Over every event
trace: the completed-run order, the in-flight job and the still-queued
jobs concatenate to exactly the enqueue order — hence the processed
sequence is always a prefix of the enqueue order (jobs run in exactly the
order enqueued, regardless of when each enqueue happened relative to a
running worker); whenever the `processing` flag is down no job is in
flight (at most one job occupies the worker, which the `inFlight` cell of
the model makes structural); and the spec's A, B, C scenario processes
`[1, 2, 3]` in order. -/
theorem c5_fifo_order :
    (∀ tr : List QEvent,
      (qRun tr).processed ++ optList (qRun tr).inFlight ++ (qRun tr).queue =
        enqueuedIds tr
      ∧ ((qRun tr).processing = false → (qRun tr).inFlight = none)
      ∧ (qRun tr).processed <+: enqueuedIds tr)
    ∧ (qRun [QEvent.enqueue 1, QEvent.enqueue 2, QEvent.enqueue 3,
        QEvent.finish, QEvent.finish, QEvent.finish]).processed = [1, 2, 3] := by
  constructor
  · intro tr
    have ⟨h1, h2⟩ := qInv tr qInit (by intro _; rfl)
    have heq : (qRun tr).processed ++ optList (qRun tr).inFlight ++ (qRun tr).queue =
        enqueuedIds tr := by
      rw [show qRun tr = tr.foldl qStep qInit from rfl, h1]
      rfl
    refine ⟨heq, h2, ?_⟩
    exact ⟨optList (qRun tr).inFlight ++ (qRun tr).queue, by rw [← heq]; simp⟩
  · decide

/-- `C10`: while the worker is processing a job, that job is invisible in
the `getStatus` snapshot: the head is removed from the in-memory queue
before `processItem` starts, so (for distinct job tokens) the in-flight
job is not listed in `items`, `queueLength` counts only the listed items,
and the `processing` flag is up — it alone reveals the in-flight job. -/
theorem c10_inflight_hidden (tr : List QEvent) (j : Nat)
    (hnd : (enqueuedIds tr).Nodup) (hin : (qRun tr).inFlight = some j) :
    j ∉ (getStatus (qRun tr)).items
    ∧ (getStatus (qRun tr)).queueLength = (getStatus (qRun tr)).items.length
    ∧ (getStatus (qRun tr)).processing = true := by
  have ⟨h1, h2⟩ := qInv tr qInit (by intro _; rfl)
  have heq : (qRun tr).processed ++ optList (qRun tr).inFlight ++ (qRun tr).queue =
      enqueuedIds tr := by
    rw [show qRun tr = tr.foldl qStep qInit from rfl, h1]
    rfl
  rw [hin] at heq
  rw [← heq] at hnd
  refine ⟨?_, rfl, ?_⟩
  · rw [List.append_assoc] at hnd
    rw [List.nodup_append] at hnd
    have hmid : (optList (some j) ++ (qRun tr).queue).Nodup := hnd.2.1
    have : (j :: (qRun tr).queue).Nodup := hmid
    exact (List.nodup_cons.mp this).1
  · cases hp : (qRun tr).processing with
    | false =>
      have h2' : (qRun tr).processing = false → (qRun tr).inFlight = none := h2
      rw [h2' hp] at hin
      cases hin
    | true => exact hp

/-- `C10` (witness): after enqueuing jobs 5 and 7 (5 starts processing at
once, 7 stays queued), job 5 is in flight and hidden from the snapshot. -/
theorem c10_witness :
    5 ∉ (getStatus (qRun [QEvent.enqueue 5, QEvent.enqueue 7])).items
    ∧ (getStatus (qRun [QEvent.enqueue 5, QEvent.enqueue 7])).queueLength =
        (getStatus (qRun [QEvent.enqueue 5, QEvent.enqueue 7])).items.length
    ∧ (getStatus (qRun [QEvent.enqueue 5, QEvent.enqueue 7])).processing = true :=
  c10_inflight_hidden [QEvent.enqueue 5, QEvent.enqueue 7] 5 (by decide) (by decide)

/-! ## C3 — episode-number resolution at pipeline start -/

/-- `C3` (code evaluation at the failing input): the first thing
`processItem` does is call `this.driveWatcher.extractEpisodeNumber`, a
method the `DriveWatcher` class does not define.  For every job, the call
throws, the catch block marks the job failed with the `TypeError` message,
no `EpisodeRecord` is initialized, and the download stage never starts —
contradicting the claim that the episode number is resolved via the
classifier and an `EpisodeRecord` initialized before download. -/
theorem c3_resolution_is_broken (env : Env) (file : CandFile)
    (h : env.resolveEpisode = dwResolveEpisode) :
    processItem env file =
      { status := .failed
        error := some "TypeError: this.driveWatcher.extractEpisodeNumber is not a function"
        steps := stepsInit
        recordInit := false
        recordFinal := none
        extracted := none } := by
  unfold processItem
  rw [h]
  rfl

/-- `C3` (witness): a concrete job `cosmic-06.mp3` against the shipped
`DriveWatcher`: the run fails at the resolution call with every stage left
pending and no episode record. -/
theorem c3_witness :
    processItem
      { resolveEpisode := dwResolveEpisode
        download := fun _ => Except.ok "/tmp/castsmith-id1-cosmic-06.mp3"
        transcribe := fun _ => Except.ok ⟨"bonjour à tous", 3600⟩
        collabText := fun _ => Except.ok "not json"
        jsonParse := fun _ => none
        pubDate := "Jan 01, 2026"
        podcastName := "cosmic"
        listFull := fun _ => Except.ok none
        downloadFull := fun _ => Except.ok "/tmp/full"
        upload := fun _ => Except.ok ⟨some "https://r2.example/cosmic-06.mp3"⟩
        repoUpdate := fun _ _ => Except.ok () }
      ⟨"cosmic-06.mp3", "id1", 100⟩ =
      { status := .failed
        error := some "TypeError: this.driveWatcher.extractEpisodeNumber is not a function"
        steps := stepsInit
        recordInit := false
        recordFinal := none
        extracted := none } :=
  c3_resolution_is_broken _ _ rfl

/-! ## C6 — per-job failure isolation -/

/-- The ways one collaborator stage of job N can fail, with the stages
before it succeeding (the episode number resolves, so an `EpisodeRecord`
exists to finalize). -/
inductive FailsAt (env : Env) (file : CandFile) (msg : String) : Prop where
  | download (ep : Nat)
      (h1 : env.resolveEpisode file.name = .ok (some ep))
      (h2 : env.download file.name = .error msg)
  | transcription (ep : Nat) (lp : String)
      (h1 : env.resolveEpisode file.name = .ok (some ep))
      (h2 : env.download file.name = .ok lp)
      (h3 : env.transcribe lp = .error msg)
  | extraction (ep : Nat) (lp : String) (tr : Transcript)
      (h1 : env.resolveEpisode file.name = .ok (some ep))
      (h2 : env.download file.name = .ok lp)
      (h3 : env.transcribe lp = .ok tr)
      (h4 : env.collabText tr = .error msg)
  | upload (ep : Nat) (lp : String) (tr : Transcript) (txt : String)
      (h1 : env.resolveEpisode file.name = .ok (some ep))
      (h2 : env.download file.name = .ok lp)
      (h3 : env.transcribe lp = .ok tr)
      (h4 : env.collabText tr = .ok txt)
      (h5 : env.listFull (findFullBase file.name) = .ok none)
      (h6 : env.upload lp = .error msg)
  | repoUpdate (ep : Nat) (lp : String) (tr : Transcript) (txt : String) (urls : Urls)
      (h1 : env.resolveEpisode file.name = .ok (some ep))
      (h2 : env.download file.name = .ok lp)
      (h3 : env.transcribe lp = .ok tr)
      (h4 : env.collabText tr = .ok txt)
      (h5 : env.listFull (findFullBase file.name) = .ok none)
      (h6 : env.upload lp = .ok urls)
      (h7 : ∀ c u, env.repoUpdate c u = .error msg)

/-- `C6`: a stage failure on job N aborts only job N — the item and its
episode record are marked failed with the captured message — while the
worker loop runs every queued job regardless (the run of the list is the
list of independent per-job runs), and the next job M with healthy
collaborators runs to completion with all five steps completed. -/
theorem c6_failure_isolation (envN envM : Env) (fileN fileM : CandFile)
    (rest : List (Env × CandFile)) (msg : String)
    (hfail : FailsAt envN fileN msg)
    (epM : Nat) (lpM : String) (trM : Transcript) (txtM : String) (urlsM : Urls)
    (hm1 : envM.resolveEpisode fileM.name = .ok (some epM))
    (hm2 : ∀ n, envM.download n = .ok lpM)
    (hm3 : envM.transcribe lpM = .ok trM)
    (hm4 : envM.collabText trM = .ok txtM)
    (hm5 : envM.listFull (findFullBase fileM.name) = .ok none)
    (hm6 : envM.upload lpM = .ok urlsM)
    (hm7 : ∀ c u, envM.repoUpdate c u = .ok ()) :
    runItems ((envN, fileN) :: (envM, fileM) :: rest) =
      processItem envN fileN :: processItem envM fileM :: runItems rest
    ∧ (processItem envN fileN).status = .failed
    ∧ (processItem envN fileN).error = some msg
    ∧ (processItem envN fileN).recordFinal = some (.failed, some msg)
    ∧ (processItem envM fileM).status = .completed
    ∧ (processItem envM fileM).steps =
        ⟨.completed, .completed, .completed, .completed, .completed⟩ := by
  have hm5x : envM.listFull (⟨replaceFirst "-no-mix".data [] fileM.name.data⟩ : String) =
      .ok none := hm5
  have hM : processItem envM fileM =
      { status := .completed, error := none
        steps := ⟨.completed, .completed, .completed, .completed, .completed⟩
        recordInit := true
        recordFinal := some (.completed, none)
        extracted := some (parseExtractedContent envM.jsonParse envM.pubDate txtM.data
          (extractEpisodeNum envM.podcastName fileM.name) trM) } := by
    unfold processItem extractContent findFullEpisodeFile
    simp only [hm1, hm2, hm3, hm4, hm5x, hm6, hm7, Option.isSome_some, if_true]
  have hN : (processItem envN fileN).status = .failed
      ∧ (processItem envN fileN).error = some msg
      ∧ (processItem envN fileN).recordFinal = some (.failed, some msg) := by
    cases hfail with
    | download ep h1 h2 =>
      unfold processItem
      simp only [h1, h2, Option.isSome_some, if_true]
      exact ⟨by trivial, by trivial, by trivial⟩
    | transcription ep lp h1 h2 h3 =>
      unfold processItem
      simp only [h1, h2, h3, Option.isSome_some, if_true]
      exact ⟨by trivial, by trivial, by trivial⟩
    | extraction ep lp tr h1 h2 h3 h4 =>
      unfold processItem extractContent
      simp only [h1, h2, h3, h4, Option.isSome_some, if_true]
      exact ⟨by trivial, by trivial, by trivial⟩
    | upload ep lp tr txt h1 h2 h3 h4 h5 h6 =>
      have h5x : envN.listFull (⟨replaceFirst "-no-mix".data [] fileN.name.data⟩ : String) =
          .ok none := h5
      unfold processItem extractContent findFullEpisodeFile
      simp only [h1, h2, h3, h4, h5x, h6, Option.isSome_some, if_true]
      exact ⟨by trivial, by trivial, by trivial⟩
    | repoUpdate ep lp tr txt urls h1 h2 h3 h4 h5 h6 h7 =>
      have h5x : envN.listFull (⟨replaceFirst "-no-mix".data [] fileN.name.data⟩ : String) =
          .ok none := h5
      unfold processItem extractContent findFullEpisodeFile
      simp only [h1, h2, h3, h4, h5x, h6, h7, Option.isSome_some, if_true]
      exact ⟨by trivial, by trivial, by trivial⟩
  exact ⟨rfl, hN.1, hN.2.1, hN.2.2, by rw [hM], by rw [hM]⟩

/-- `C6` (witness): job N's download fails with a network error, job M
(`cosmic-07.mp3`) completes with all steps done; the loop is the list of
both runs. -/
theorem c6_witness :
    runItems
      [({ resolveEpisode := fun _ => Except.ok (some 6)
          download := fun _ => Except.error "network error"
          transcribe := fun _ => Except.ok ⟨"", 0⟩
          collabText := fun _ => Except.ok ""
          jsonParse := fun _ => none
          pubDate := "Jan 01, 2026"
          podcastName := "cosmic"
          listFull := fun _ => Except.ok none
          downloadFull := fun _ => Except.ok ""
          upload := fun _ => Except.ok ⟨none⟩
          repoUpdate := fun _ _ => Except.ok () },
        (⟨"cosmic-06.mp3", "id6", 100⟩ : CandFile)),
       ({ resolveEpisode := fun _ => Except.ok (some 7)
          download := fun _ => Except.ok "/tmp/seven"
          transcribe := fun _ => Except.ok ⟨"bonjour", 60⟩
          collabText := fun _ => Except.ok "pas du json"
          jsonParse := fun _ => none
          pubDate := "Jan 01, 2026"
          podcastName := "cosmic"
          listFull := fun _ => Except.ok none
          downloadFull := fun _ => Except.ok ""
          upload := fun _ => Except.ok ⟨some "https://r2.example/a.mp3"⟩
          repoUpdate := fun _ _ => Except.ok () },
        (⟨"cosmic-07.mp3", "id7", 200⟩ : CandFile))] =
      processItem
        { resolveEpisode := fun _ => Except.ok (some 6)
          download := fun _ => Except.error "network error"
          transcribe := fun _ => Except.ok ⟨"", 0⟩
          collabText := fun _ => Except.ok ""
          jsonParse := fun _ => none
          pubDate := "Jan 01, 2026"
          podcastName := "cosmic"
          listFull := fun _ => Except.ok none
          downloadFull := fun _ => Except.ok ""
          upload := fun _ => Except.ok ⟨none⟩
          repoUpdate := fun _ _ => Except.ok () }
        ⟨"cosmic-06.mp3", "id6", 100⟩ ::
      processItem
        { resolveEpisode := fun _ => Except.ok (some 7)
          download := fun _ => Except.ok "/tmp/seven"
          transcribe := fun _ => Except.ok ⟨"bonjour", 60⟩
          collabText := fun _ => Except.ok "pas du json"
          jsonParse := fun _ => none
          pubDate := "Jan 01, 2026"
          podcastName := "cosmic"
          listFull := fun _ => Except.ok none
          downloadFull := fun _ => Except.ok ""
          upload := fun _ => Except.ok ⟨some "https://r2.example/a.mp3"⟩
          repoUpdate := fun _ _ => Except.ok () }
        ⟨"cosmic-07.mp3", "id7", 200⟩ :: runItems []
    ∧ (processItem
        { resolveEpisode := fun _ => Except.ok (some 6)
          download := fun _ => Except.error "network error"
          transcribe := fun _ => Except.ok ⟨"", 0⟩
          collabText := fun _ => Except.ok ""
          jsonParse := fun _ => none
          pubDate := "Jan 01, 2026"
          podcastName := "cosmic"
          listFull := fun _ => Except.ok none
          downloadFull := fun _ => Except.ok ""
          upload := fun _ => Except.ok ⟨none⟩
          repoUpdate := fun _ _ => Except.ok () }
        ⟨"cosmic-06.mp3", "id6", 100⟩).status = .failed
    ∧ (processItem
        { resolveEpisode := fun _ => Except.ok (some 6)
          download := fun _ => Except.error "network error"
          transcribe := fun _ => Except.ok ⟨"", 0⟩
          collabText := fun _ => Except.ok ""
          jsonParse := fun _ => none
          pubDate := "Jan 01, 2026"
          podcastName := "cosmic"
          listFull := fun _ => Except.ok none
          downloadFull := fun _ => Except.ok ""
          upload := fun _ => Except.ok ⟨none⟩
          repoUpdate := fun _ _ => Except.ok () }
        ⟨"cosmic-06.mp3", "id6", 100⟩).error = some "network error"
    ∧ (processItem
        { resolveEpisode := fun _ => Except.ok (some 6)
          download := fun _ => Except.error "network error"
          transcribe := fun _ => Except.ok ⟨"", 0⟩
          collabText := fun _ => Except.ok ""
          jsonParse := fun _ => none
          pubDate := "Jan 01, 2026"
          podcastName := "cosmic"
          listFull := fun _ => Except.ok none
          downloadFull := fun _ => Except.ok ""
          upload := fun _ => Except.ok ⟨none⟩
          repoUpdate := fun _ _ => Except.ok () }
        ⟨"cosmic-06.mp3", "id6", 100⟩).recordFinal = some (.failed, some "network error")
    ∧ (processItem
        { resolveEpisode := fun _ => Except.ok (some 7)
          download := fun _ => Except.ok "/tmp/seven"
          transcribe := fun _ => Except.ok ⟨"bonjour", 60⟩
          collabText := fun _ => Except.ok "pas du json"
          jsonParse := fun _ => none
          pubDate := "Jan 01, 2026"
          podcastName := "cosmic"
          listFull := fun _ => Except.ok none
          downloadFull := fun _ => Except.ok ""
          upload := fun _ => Except.ok ⟨some "https://r2.example/a.mp3"⟩
          repoUpdate := fun _ _ => Except.ok () }
        ⟨"cosmic-07.mp3", "id7", 200⟩).status = .completed
    ∧ (processItem
        { resolveEpisode := fun _ => Except.ok (some 7)
          download := fun _ => Except.ok "/tmp/seven"
          transcribe := fun _ => Except.ok ⟨"bonjour", 60⟩
          collabText := fun _ => Except.ok "pas du json"
          jsonParse := fun _ => none
          pubDate := "Jan 01, 2026"
          podcastName := "cosmic"
          listFull := fun _ => Except.ok none
          downloadFull := fun _ => Except.ok ""
          upload := fun _ => Except.ok ⟨some "https://r2.example/a.mp3"⟩
          repoUpdate := fun _ _ => Except.ok () }
        ⟨"cosmic-07.mp3", "id7", 200⟩).steps =
          ⟨.completed, .completed, .completed, .completed, .completed⟩ :=
  c6_failure_isolation _ _ _ _ [] "network error"
    (FailsAt.download 6 rfl rfl)
    7 "/tmp/seven" ⟨"bonjour", 60⟩ "pas du json" ⟨some "https://r2.example/a.mp3"⟩
    rfl (fun _ => rfl) rfl rfl rfl rfl (fun _ _ => rfl)

/-! ## C4 — extraction fallback -/

/-- `C4` (counterexample): the claim asserts that a *throwing* extraction
collaborator is also recovered with fallback content and never surfaced as
a job failure.  `ContentExtractor.extract` rethrows collaborator errors
(contentExtractor.js lines 38–41), so a job whose Anthropic call throws is
marked failed with that error — it does not complete. -/
theorem c4_counterexample :
    (processItem
      { resolveEpisode := fun _ => Except.ok (some 6)
        download := fun _ => Except.ok "/tmp/six"
        transcribe := fun _ => Except.ok ⟨"bonjour", 60⟩
        collabText := fun _ => Except.error "Anthropic API error"
        jsonParse := fun _ => none
        pubDate := "Jan 01, 2026"
        podcastName := "cosmic"
        listFull := fun _ => Except.ok none
        downloadFull := fun _ => Except.ok ""
        upload := fun _ => Except.ok ⟨some "https://r2.example/a.mp3"⟩
        repoUpdate := fun _ _ => Except.ok () }
      ⟨"cosmic-06.mp3", "id6", 100⟩).status = .failed
    ∧ (processItem
      { resolveEpisode := fun _ => Except.ok (some 6)
        download := fun _ => Except.ok "/tmp/six"
        transcribe := fun _ => Except.ok ⟨"bonjour", 60⟩
        collabText := fun _ => Except.error "Anthropic API error"
        jsonParse := fun _ => none
        pubDate := "Jan 01, 2026"
        podcastName := "cosmic"
        listFull := fun _ => Except.ok none
        downloadFull := fun _ => Except.ok ""
        upload := fun _ => Except.ok ⟨some "https://r2.example/a.mp3"⟩
        repoUpdate := fun _ _ => Except.ok () }
      ⟨"cosmic-06.mp3", "id6", 100⟩).error = some "Anthropic API error" :=
  ⟨rfl, rfl⟩

/-- `C4` (amended): when the extraction collaborator *returns* output whose
JSON block does not parse, the job still completes and the extraction
stage substitutes the deterministic fallback content — title
`Episode <N>, Cosmic, L'émission` for the filename-derived episode number
`<N>`, empty tracks, guests and events, and a non-empty
`markdownContent`; but when the extraction collaborator *throws*, the
error propagates out of `extract` and the job fails. -/
theorem c4_fallback (env : Env) (file : CandFile) (ep : Option Nat) (lp txt : String)
    (tr : Transcript) (urls : Urls)
    (hres : env.resolveEpisode file.name = .ok ep)
    (hdl : ∀ n, env.download n = .ok lp)
    (htr : env.transcribe lp = .ok tr)
    (hcol : env.collabText tr = .ok txt)
    (hjson : env.jsonParse (extractJsonBlockL txt.data) = none)
    (hls : ∀ b, env.listFull b = .ok none)
    (hup : env.upload lp = .ok urls)
    (hrepo : ∀ c u, env.repoUpdate c u = .ok ()) :
    (processItem env file).status = .completed
    ∧ (processItem env file).extracted = some (createFallbackContent env.pubDate
        (extractEpisodeNum env.podcastName file.name) tr)
    ∧ (createFallbackContent env.pubDate (extractEpisodeNum env.podcastName file.name) tr).title
        = ⟨"Episode ".data ++ renderEpL (extractEpisodeNum env.podcastName file.name) ++
            ", Cosmic, L'émission".data⟩
    ∧ (createFallbackContent env.pubDate (extractEpisodeNum env.podcastName file.name) tr).tracks
        = []
    ∧ (createFallbackContent env.pubDate (extractEpisodeNum env.podcastName file.name) tr).guests
        = []
    ∧ (createFallbackContent env.pubDate (extractEpisodeNum env.podcastName file.name) tr).events
        = []
    ∧ (createFallbackContent env.pubDate (extractEpisodeNum env.podcastName file.name)
        tr).markdownContent ≠ ""
    ∧ (∀ (pn : String) (jp : List Char → Option Fields) (pd : String) (tr2 : Transcript)
        (fn msg : String), extractContent pn (Except.error msg) jp pd tr2 fn =
          Except.error msg) := by
  have hparse : parseExtractedContent env.jsonParse env.pubDate txt.data
      (extractEpisodeNum env.podcastName file.name) tr =
      createFallbackContent env.pubDate (extractEpisodeNum env.podcastName file.name) tr := by
    unfold parseExtractedContent
    rw [hjson]
  have hrun : processItem env file =
      { status := .completed, error := none
        steps := ⟨.completed, .completed, .completed, .completed, .completed⟩
        recordInit := ep.isSome
        recordFinal := if ep.isSome then some (JobStatus.completed, none) else none
        extracted := some (createFallbackContent env.pubDate
          (extractEpisodeNum env.podcastName file.name) tr) } := by
    unfold processItem extractContent findFullEpisodeFile
    simp only [hres, hdl, htr, hcol, hls, hup, hrepo, hparse]
  refine ⟨by rw [hrun], by rw [hrun], rfl, rfl, rfl, rfl, ?_, fun _ _ _ _ _ _ => rfl⟩
  intro h
  have h2 : fallbackMdL env.pubDate (extractEpisodeNum env.podcastName file.name)
      (formatDuration tr.duration) = [] := congrArg String.data h
  unfold fallbackMdL at h2
  simp only [List.append_eq_nil] at h2
  exact absurd h2.2 (by decide)

/-- `C4` (witness): concrete run with a collaborator returning unparseable
text: the job completes and carries the fallback content for episode 6. -/
theorem c4_witness :
    (processItem
      { resolveEpisode := fun _ => Except.ok (some 6)
        download := fun _ => Except.ok "/tmp/six"
        transcribe := fun _ => Except.ok ⟨"bonjour", 60⟩
        collabText := fun _ => Except.ok "pas du json"
        jsonParse := fun _ => none
        pubDate := "Jan 01, 2026"
        podcastName := "cosmic"
        listFull := fun _ => Except.ok none
        downloadFull := fun _ => Except.ok ""
        upload := fun _ => Except.ok ⟨some "https://r2.example/a.mp3"⟩
        repoUpdate := fun _ _ => Except.ok () }
      ⟨"cosmic-06.mp3", "id6", 100⟩).status = .completed
    ∧ (processItem
      { resolveEpisode := fun _ => Except.ok (some 6)
        download := fun _ => Except.ok "/tmp/six"
        transcribe := fun _ => Except.ok ⟨"bonjour", 60⟩
        collabText := fun _ => Except.ok "pas du json"
        jsonParse := fun _ => none
        pubDate := "Jan 01, 2026"
        podcastName := "cosmic"
        listFull := fun _ => Except.ok none
        downloadFull := fun _ => Except.ok ""
        upload := fun _ => Except.ok ⟨some "https://r2.example/a.mp3"⟩
        repoUpdate := fun _ _ => Except.ok () }
      ⟨"cosmic-06.mp3", "id6", 100⟩).extracted =
        some (createFallbackContent "Jan 01, 2026"
          (extractEpisodeNum "cosmic" "cosmic-06.mp3") ⟨"bonjour", 60⟩) := by
  have h := c4_fallback
    { resolveEpisode := fun _ => Except.ok (some 6)
      download := fun _ => Except.ok "/tmp/six"
      transcribe := fun _ => Except.ok ⟨"bonjour", 60⟩
      collabText := fun _ => Except.ok "pas du json"
      jsonParse := fun _ => none
      pubDate := "Jan 01, 2026"
      podcastName := "cosmic"
      listFull := fun _ => Except.ok none
      downloadFull := fun _ => Except.ok ""
      upload := fun _ => Except.ok ⟨some "https://r2.example/a.mp3"⟩
      repoUpdate := fun _ _ => Except.ok () }
    ⟨"cosmic-06.mp3", "id6", 100⟩ (some 6) "/tmp/six" "pas du json"
    ⟨"bonjour", 60⟩ ⟨some "https://r2.example/a.mp3"⟩
    rfl (fun _ => rfl) rfl rfl rfl (fun _ => rfl) rfl (fun _ _ => rfl)
  exact ⟨h.1, h.2.1⟩

/-! ## C9 helper lemmas — placeholder occurrence analysis -/

theorem append_ne_nil_left {α : Type} {a b : List α} (h : a ≠ []) : a ++ b ≠ [] := by
  intro hh
  rcases List.append_eq_nil.mp hh with ⟨h1, _⟩
  exact h h1

theorem occursB_any (s : List Char) : occursB [] s = true := by
  cases s with
  | nil => rfl
  | cons c t => rfl

theorem isPrefixCh_extend {tok : List Char} :
    ∀ {x : List Char} (y : List Char), isPrefixCh tok x = true →
      isPrefixCh tok (x ++ y) = true := by
  induction tok with
  | nil => intro x y _; exact isPrefixCh_self_append [] (x ++ y)
  | cons t ts ih =>
    intro x y h
    cases x with
    | nil => cases h
    | cons c xt =>
      rw [isPrefixCh_cons_cons, Bool.and_eq_true] at h
      show isPrefixCh (t :: ts) (c :: (xt ++ y)) = true
      rw [isPrefixCh_cons_cons, h.1, ih y h.2]
      rfl

theorem occursB_append_left_of {tok : List Char} :
    ∀ {x : List Char} (y : List Char), occursB tok x = true →
      occursB tok (x ++ y) = true := by
  intro x
  induction x with
  | nil =>
    intro y h
    cases tok with
    | nil => exact occursB_any y
    | cons t ts => cases h
  | cons c xt ih =>
    intro y h
    rw [occursB_cons, Bool.or_eq_true] at h
    show occursB tok (c :: (xt ++ y)) = true
    rw [occursB_cons, Bool.or_eq_true]
    rcases h with h | h
    · exact Or.inl (isPrefixCh_extend y h)
    · exact Or.inr (ih y h)

theorem occursB_refl (tok : List Char) : occursB tok tok = true := by
  have h := isPrefixCh_self_append tok []
  rw [List.append_nil] at h
  exact occursB_of_isPrefixCh h

/-- Token-freedom is preserved by appending across a boundary whose right
side starts blocked. -/
theorem tfree_app_right {tok x y : List Char} (hcs : tok.all tokChar = true)
    (hb : headBlockedB tokChar y = true) (hx : occursB tok x = false)
    (hy : occursB tok y = false) : occursB tok (x ++ y) = false := by
  rw [occursB_append_of_head_blocked hcs hb x, hx, hy]
  rfl

/-- Token-freedom is preserved by appending across a boundary whose left
side ends blocked. -/
theorem tfree_app_left {tok x y : List Char} (hcs : tok.all tokChar = true)
    (hb : lastBlockedB tokChar x = true) (hx : occursB tok x = false)
    (hy : occursB tok y = false) : occursB tok (x ++ y) = false := by
  rw [occursB_append_of_last_blocked hcs x y hb, hx, hy]
  rfl

theorem digitCh_range (m : Nat) :
    48 ≤ (digitCh m).toNat ∧ (digitCh m).toNat ≤ 57 := by
  unfold digitCh
  split_ifs <;> exact (by decide)

theorem natDigits_digits : ∀ n : Nat, ∀ c ∈ natDigits n,
    48 ≤ c.toNat ∧ c.toNat ≤ 57 := by
  intro n
  induction n using Nat.strong_induction_on with
  | _ n ih =>
    unfold natDigits
    split_ifs with h
    · intro c hc
      rw [List.mem_singleton] at hc
      subst hc
      exact digitCh_range n
    · intro c hc
      rcases List.mem_append.mp hc with hc | hc
      · exact ih (n / 10) (Nat.div_lt_self (by omega) (by omega)) c hc
      · rw [List.mem_singleton] at hc
        subst hc
        exact digitCh_range (n % 10)

/-- Both placeholder tokens contain an underscore, and no rendered episode
number does, so neither token can occur in a rendered episode number. -/
theorem renderEp_tfree {tok : List Char} (h : '_' ∈ tok) (e : Option Nat) :
    occursB tok (renderEpL e) = false := by
  cases e with
  | none =>
    apply occursB_eq_false_of_missing h
    intro c hc heq
    rw [heq] at hc
    exact absurd hc (by decide)
  | some n =>
    apply occursB_eq_false_of_missing h
    intro c hc heq
    have := natDigits_digits n c hc
    rw [heq] at this
    revert this
    decide

/-- Flattening rows that are each token-free and start blocked yields a
token-free, blocked-start list. -/
theorem tfree_flatten {tok : List Char} (hcs : tok.all tokChar = true) (hne : tok ≠ []) :
    ∀ rows : List (List Char),
      (∀ r ∈ rows, occursB tok r = false ∧ headBlockedB tokChar r = true) →
      occursB tok rows.flatten = false ∧ headBlockedB tokChar rows.flatten = true := by
  intro rows
  induction rows with
  | nil =>
    intro _
    exact ⟨occursB_nil_of_ne hne, rfl⟩
  | cons r rest ih =>
    intro h
    have hr := h r (List.mem_cons_self _ _)
    have ⟨ih1, ih2⟩ := ih fun x hx => h x (List.mem_cons_of_mem _ hx)
    rw [List.flatten_cons]
    constructor
    · exact tfree_app_right hcs ih2 hr.1 ih1
    · cases hrc : r with
      | nil => simpa [hrc] using ih2
      | cons a t =>
        rw [headBlockedB_append (by simp)]
        rw [hrc] at hr
        exact hr.2

/-- Occurrence-freedom of every literal template chunk for the token `tok`
(discharged by `decide` at each concrete placeholder token). -/
abbrev litsTokFree (tok : List Char) : Prop :=
  occursB tok "---\ntitle: \"".data = false ∧
  occursB tok "\"\naudioUrl: \"".data = false ∧
  occursB tok "\"  \npubDate: \"".data = false ∧
  occursB tok "\"\nduration: \"".data = false ∧
  occursB tok "\"\nsize: ".data = false ∧
  occursB tok "\ncover: \"/images/ep".data = false ∧
  occursB tok ".png\"\nexplicit: true\nepisode: ".data = false ∧
  occursB tok "\nseason: 1\nepisodeType: full\n---\n\n# ".data = false ∧
  occursB tok "\n\nAnimé par [Jerohm](https://jerohm.com/) avec la complicité de [Antoine aka Cosmic Turtle](https://i.seadn.io/gcs/files/a552993aecdcdb0aedd93116bc207e59.png?auto=format&w=1400&fr=1), [Greg aka Joe d'Absynth](https://soundcloud.com/gregory-berger-1) et [Kevin aka George Mood](https://soundcloud.com/george_mood)\n\n---\n\n".data = false ∧
  occursB tok "\n\n".data = false ∧
  occursB tok "## Le monologue de Jérôme\n\n> ".data = false ∧
  occursB tok "\n\n---\n\n".data = false ∧
  occursB tok "## Guest Mix\n\n".data = false ∧
  occursB tok "[".data = false ∧
  occursB tok "](".data = false ∧
  occursB tok ") Merci encore !!\n\n".data = false ∧
  occursB tok "## Morceaux mentionnés\n\n| Artiste | Morceau | Info | Lien YouTube |\n|---------|---------|------|--------------|\n".data = false ∧
  occursB tok "| ".data = false ∧
  occursB tok " | ".data = false ∧
  occursB tok " |\n".data = false ∧
  occursB tok "\n---\n\n".data = false ∧
  occursB tok "## Événements mentionnés\n\n".data = false ∧
  occursB tok "- **".data = false ∧
  occursB tok "**".data = false ∧
  occursB tok "\n".data = false

/-- Is the rendered opening monologue (when present and non-empty in the
JavaScript truthiness sense) free of the token? -/
def monoFreeB (tok : List Char) (c : Content) : Bool :=
  match c.openingMonologue with
  | none => true
  | some m => !occursB tok (renderMonoL m)

/-- Occurrence-freedom of every interpolated content field of the
document, for the token `tok`. -/
abbrev contentTokFree (tok : List Char) (pd : String) (c : Content) : Prop :=
  occursB tok c.title.data = false ∧
  occursB tok pd.data = false ∧
  occursB tok (durStrL c.duration) = false ∧
  occursB tok c.description.data = false ∧
  monoFreeB tok c = true ∧
  (∀ g ∈ c.guests, occursB tok g.name.data = false ∧ occursB tok (projStrL g) = false) ∧
  (∀ t ∈ c.tracks, occursB tok t.artist.data = false ∧ occursB tok t.title.data = false ∧
    occursB tok (infoStrL t) = false ∧ occursB tok (linkStrL t) = false) ∧
  (∀ e ∈ c.events, occursB tok e.name.data = false ∧ occursB tok (eventLocL e) = false)

theorem gRow_free {tok : List Char} (hcs : tok.all tokChar = true)
    (hl14 : occursB tok "[".data = false) (hl15 : occursB tok "](".data = false)
    (hl16 : occursB tok ") Merci encore !!\n\n".data = false)
    {g : Guest} (hn : occursB tok g.name.data = false)
    (hp : occursB tok (projStrL g) = false) :
    occursB tok (guestRowL g) = false ∧ headBlockedB tokChar (guestRowL g) = true := by
  unfold guestRowL
  constructor
  · apply tfree_app_right hcs (by decide)
    · apply tfree_app_left hcs
      · rw [lastBlockedB_append (by decide)]
        decide
      · exact tfree_app_right hcs (by decide)
          (tfree_app_left hcs (by decide) hl14 hn) hl15
      · exact hp
    · exact hl16
  · rw [headBlockedB_append
        (append_ne_nil_left (append_ne_nil_left (append_ne_nil_left (by decide)))),
      headBlockedB_append (append_ne_nil_left (append_ne_nil_left (by decide))),
      headBlockedB_append (append_ne_nil_left (by decide)),
      headBlockedB_append (by decide)]
    decide

theorem gSec_free {tok : List Char} (hcs : tok.all tokChar = true) (hne : tok ≠ [])
    (hl13 : occursB tok "## Guest Mix\n\n".data = false)
    (hl14 : occursB tok "[".data = false) (hl15 : occursB tok "](".data = false)
    (hl16 : occursB tok ") Merci encore !!\n\n".data = false)
    {c : Content}
    (hg : ∀ g ∈ c.guests, occursB tok g.name.data = false ∧ occursB tok (projStrL g) = false) :
    occursB tok (guestsSectionL c) = false ∧
      headBlockedB tokChar (guestsSectionL c) = true := by
  unfold guestsSectionL
  by_cases he : c.guests.isEmpty
  · rw [if_pos he]
    exact ⟨occursB_nil_of_ne hne, rfl⟩
  · rw [if_neg he]
    have hflat := tfree_flatten hcs hne (c.guests.map guestRowL) (by
      intro r hr
      rcases List.mem_map.mp hr with ⟨g, hgm, rfl⟩
      exact gRow_free hcs hl14 hl15 hl16 (hg g hgm).1 (hg g hgm).2)
    constructor
    · exact tfree_app_left hcs (by decide) hl13 hflat.1
    · rw [headBlockedB_append (by decide)]
      decide

theorem tRow_free {tok : List Char} (hcs : tok.all tokChar = true)
    (hl18 : occursB tok "| ".data = false) (hl19 : occursB tok " | ".data = false)
    (hl20 : occursB tok " |\n".data = false)
    {t : Track} (ha : occursB tok t.artist.data = false)
    (hti : occursB tok t.title.data = false)
    (hin : occursB tok (infoStrL t) = false)
    (hlk : occursB tok (linkStrL t) = false) :
    occursB tok (trackRowL t) = false ∧ headBlockedB tokChar (trackRowL t) = true := by
  unfold trackRowL
  have x1 : occursB tok ("| ".data ++ t.artist.data) = false :=
    tfree_app_left hcs (by decide) hl18 ha
  have x2 : occursB tok (("| ".data ++ t.artist.data) ++ " | ".data) = false :=
    tfree_app_right hcs (by decide) x1 hl19
  have x3 : occursB tok ((("| ".data ++ t.artist.data) ++ " | ".data) ++ t.title.data) = false := by
    apply tfree_app_left hcs ?_ x2 hti
    rw [lastBlockedB_append (by decide)]
    decide
  have x4 : occursB tok (((("| ".data ++ t.artist.data) ++ " | ".data) ++ t.title.data)
      ++ " | ".data) = false :=
    tfree_app_right hcs (by decide) x3 hl19
  have x5 : occursB tok ((((("| ".data ++ t.artist.data) ++ " | ".data) ++ t.title.data)
      ++ " | ".data) ++ infoStrL t) = false := by
    apply tfree_app_left hcs ?_ x4 hin
    rw [lastBlockedB_append (by decide)]
    decide
  have x6 : occursB tok (((((("| ".data ++ t.artist.data) ++ " | ".data) ++ t.title.data)
      ++ " | ".data) ++ infoStrL t) ++ " | ".data) = false :=
    tfree_app_right hcs (by decide) x5 hl19
  have x7 : occursB tok ((((((("| ".data ++ t.artist.data) ++ " | ".data) ++ t.title.data)
      ++ " | ".data) ++ infoStrL t) ++ " | ".data) ++ linkStrL t) = false := by
    exact tfree_app_left hcs (by rw [lastBlockedB_append (by decide)]; decide) x6 hlk
  constructor
  · exact tfree_app_right hcs (by decide) x7 hl20
  · rw [headBlockedB_append (append_ne_nil_left (append_ne_nil_left (append_ne_nil_left
        (append_ne_nil_left (append_ne_nil_left (append_ne_nil_left
          (append_ne_nil_left (by decide)))))))),
      headBlockedB_append (append_ne_nil_left (append_ne_nil_left (append_ne_nil_left
        (append_ne_nil_left (append_ne_nil_left (append_ne_nil_left (by decide))))))),
      headBlockedB_append (append_ne_nil_left (append_ne_nil_left (append_ne_nil_left
        (append_ne_nil_left (append_ne_nil_left (by decide)))))),
      headBlockedB_append (append_ne_nil_left (append_ne_nil_left (append_ne_nil_left
        (append_ne_nil_left (by decide))))),
      headBlockedB_append (append_ne_nil_left (append_ne_nil_left (append_ne_nil_left
        (by decide)))),
      headBlockedB_append (append_ne_nil_left (append_ne_nil_left (by decide))),
      headBlockedB_append (append_ne_nil_left (by decide)),
      headBlockedB_append (by decide)]
    decide

theorem tSec_free {tok : List Char} (hcs : tok.all tokChar = true) (hne : tok ≠ [])
    (hl17 : occursB tok "## Morceaux mentionnés\n\n| Artiste | Morceau | Info | Lien YouTube |\n|---------|---------|------|--------------|\n".data = false)
    (hl18 : occursB tok "| ".data = false) (hl19 : occursB tok " | ".data = false)
    (hl20 : occursB tok " |\n".data = false) (hl21 : occursB tok "\n---\n\n".data = false)
    {c : Content}
    (ht : ∀ t ∈ c.tracks, occursB tok t.artist.data = false ∧
      occursB tok t.title.data = false ∧ occursB tok (infoStrL t) = false ∧
      occursB tok (linkStrL t) = false) :
    occursB tok (tracksSectionL c) = false ∧
      headBlockedB tokChar (tracksSectionL c) = true := by
  unfold tracksSectionL
  by_cases he : c.tracks.isEmpty
  · rw [if_pos he]
    exact ⟨occursB_nil_of_ne hne, rfl⟩
  · rw [if_neg he]
    have hflat := tfree_flatten hcs hne (c.tracks.map trackRowL) (by
      intro r hr
      rcases List.mem_map.mp hr with ⟨t, htm, rfl⟩
      exact tRow_free hcs hl18 hl19 hl20 (ht t htm).1 (ht t htm).2.1
        (ht t htm).2.2.1 (ht t htm).2.2.2)
    constructor
    · apply tfree_app_right hcs (by decide) ?_ hl21
      exact tfree_app_left hcs (by decide) hl17 hflat.1
    · rw [headBlockedB_append (append_ne_nil_left (by decide)),
        headBlockedB_append (by decide)]
      decide

theorem eRow_free {tok : List Char} (hcs : tok.all tokChar = true)
    (hl23 : occursB tok "- **".data = false) (hl24 : occursB tok "**".data = false)
    (hl26 : occursB tok "\n".data = false)
    {e : EventItem} (hn : occursB tok e.name.data = false)
    (hl : occursB tok (eventLocL e) = false) :
    occursB tok (eventRowL e) = false ∧ headBlockedB tokChar (eventRowL e) = true := by
  unfold eventRowL
  have x1 : occursB tok ("- **".data ++ e.name.data) = false :=
    tfree_app_left hcs (by decide) hl23 hn
  have x2 : occursB tok (("- **".data ++ e.name.data) ++ "**".data) = false :=
    tfree_app_right hcs (by decide) x1 hl24
  have x3 : occursB tok ((("- **".data ++ e.name.data) ++ "**".data) ++ eventLocL e) = false := by
    apply tfree_app_left hcs ?_ x2 hl
    rw [lastBlockedB_append (by decide)]
    decide
  constructor
  · exact tfree_app_right hcs (by decide) x3 hl26
  · rw [headBlockedB_append (append_ne_nil_left (append_ne_nil_left
        (append_ne_nil_left (by decide)))),
      headBlockedB_append (append_ne_nil_left (append_ne_nil_left (by decide))),
      headBlockedB_append (append_ne_nil_left (by decide)),
      headBlockedB_append (by decide)]
    decide

theorem eSec_free {tok : List Char} (hcs : tok.all tokChar = true) (hne : tok ≠ [])
    (hl22 : occursB tok "## Événements mentionnés\n\n".data = false)
    (hl23 : occursB tok "- **".data = false) (hl24 : occursB tok "**".data = false)
    (hl26 : occursB tok "\n".data = false)
    {c : Content}
    (hev : ∀ e ∈ c.events, occursB tok e.name.data = false ∧
      occursB tok (eventLocL e) = false) :
    occursB tok (eventsSectionL c) = false ∧
      headBlockedB tokChar (eventsSectionL c) = true := by
  unfold eventsSectionL
  by_cases he : c.events.isEmpty
  · rw [if_pos he]
    exact ⟨occursB_nil_of_ne hne, rfl⟩
  · rw [if_neg he]
    have hflat := tfree_flatten hcs hne (c.events.map eventRowL) (by
      intro r hr
      rcases List.mem_map.mp hr with ⟨e, hem, rfl⟩
      exact eRow_free hcs hl23 hl24 hl26 (hev e hem).1 (hev e hem).2)
    constructor
    · exact tfree_app_left hcs (by decide) hl22 hflat.1
    · rw [headBlockedB_append (by decide)]
      decide

theorem mono_free {tok : List Char} (hcs : tok.all tokChar = true) (hne : tok ≠ [])
    (hl11 : occursB tok "## Le monologue de Jérôme\n\n> ".data = false)
    (hl12 : occursB tok "\n\n---\n\n".data = false)
    {c : Content}
    (hm : monoFreeB tok c = true) :
    occursB tok (monoBlockL c) = false ∧ lastBlockedB tokChar (monoBlockL c) = true := by
  unfold monoBlockL
  unfold monoFreeB at hm
  cases hmo : c.openingMonologue with
  | none => exact ⟨occursB_nil_of_ne hne, rfl⟩
  | some m =>
    rw [hmo] at hm
    have hm2 : occursB tok (renderMonoL m) = false := by
      have hb : (!occursB tok (renderMonoL m)) = true := hm
      simpa using hb
    show occursB tok (if m = "" then []
        else "## Le monologue de Jérôme\n\n> ".data ++ renderMonoL m ++ "\n\n---\n\n".data) = false
      ∧ lastBlockedB tokChar (if m = "" then []
        else "## Le monologue de Jérôme\n\n> ".data ++ renderMonoL m ++ "\n\n---\n\n".data) = true
    by_cases hem : m = ""
    · rw [if_pos hem]
      exact ⟨occursB_nil_of_ne hne, rfl⟩
    · rw [if_neg hem]
      constructor
      · apply tfree_app_right hcs (by decide) ?_ hl12
        exact tfree_app_left hcs (by decide) hl11 hm2
      · rw [lastBlockedB_append (by decide)]
        decide

theorem hdrPre_free {tok : List Char} (hcs : tok.all tokChar = true)
    (hl1 : occursB tok "---\ntitle: \"".data = false)
    (hl2 : occursB tok "\"\naudioUrl: \"".data = false)
    {c : Content} (hti : occursB tok c.title.data = false) :
    occursB tok (hdrPreL c) = false ∧ lastBlockedB tokChar (hdrPreL c) = true := by
  unfold hdrPreL
  constructor
  · exact tfree_app_right hcs (by decide)
      (tfree_app_left hcs (by decide) hl1 hti) hl2
  · rw [lastBlockedB_append (by decide)]
    decide

theorem hdrMid_free {tok : List Char} (hcs : tok.all tokChar = true)
    (hl3 : occursB tok "\"  \npubDate: \"".data = false)
    (hl4 : occursB tok "\"\nduration: \"".data = false)
    (hl5 : occursB tok "\"\nsize: ".data = false)
    {pd : String} {c : Content} (hpd : occursB tok pd.data = false)
    (hdu : occursB tok (durStrL c.duration) = false) :
    occursB tok (hdrMidL pd c) = false
    ∧ lastBlockedB tokChar (hdrMidL pd c) = true
    ∧ headBlockedB tokChar (hdrMidL pd c) = true := by
  unfold hdrMidL
  refine ⟨?_, ?_, ?_⟩
  · have x1 : occursB tok ("\"  \npubDate: \"".data ++ pd.data) = false :=
      tfree_app_left hcs (by decide) hl3 hpd
    have x2 : occursB tok (("\"  \npubDate: \"".data ++ pd.data)
        ++ "\"\nduration: \"".data) = false :=
      tfree_app_right hcs (by decide) x1 hl4
    have x3 : occursB tok ((("\"  \npubDate: \"".data ++ pd.data)
        ++ "\"\nduration: \"".data) ++ durStrL c.duration) = false := by
      apply tfree_app_left hcs ?_ x2 hdu
      rw [lastBlockedB_append (by decide)]
      decide
    exact tfree_app_right hcs (by decide) x3 hl5
  · rw [lastBlockedB_append (by decide)]
    decide
  · rw [headBlockedB_append (append_ne_nil_left (append_ne_nil_left
        (append_ne_nil_left (by decide)))),
      headBlockedB_append (append_ne_nil_left (append_ne_nil_left (by decide))),
      headBlockedB_append (append_ne_nil_left (by decide)),
      headBlockedB_append (by decide)]
    decide

theorem hdrPost_free {tok : List Char} (hcs : tok.all tokChar = true)
    (hu : '_' ∈ tok)
    (hl6 : occursB tok "\ncover: \"/images/ep".data = false)
    (hl7 : occursB tok ".png\"\nexplicit: true\nepisode: ".data = false)
    (hl8 : occursB tok "\nseason: 1\nepisodeType: full\n---\n\n# ".data = false)
    (hl9 : occursB tok "\n\nAnimé par [Jerohm](https://jerohm.com/) avec la complicité de [Antoine aka Cosmic Turtle](https://i.seadn.io/gcs/files/a552993aecdcdb0aedd93116bc207e59.png?auto=format&w=1400&fr=1), [Greg aka Joe d'Absynth](https://soundcloud.com/gregory-berger-1) et [Kevin aka George Mood](https://soundcloud.com/george_mood)\n\n---\n\n".data = false)
    {c : Content} (hti : occursB tok c.title.data = false) :
    occursB tok (hdrPostL c) = false ∧ headBlockedB tokChar (hdrPostL c) = true := by
  unfold hdrPostL
  have hep := renderEp_tfree hu c.episodeNumber
  constructor
  · have x1 : occursB tok ("\ncover: \"/images/ep".data ++ renderEpL c.episodeNumber) = false :=
      tfree_app_left hcs (by decide) hl6 hep
    have x2 : occursB tok (("\ncover: \"/images/ep".data ++ renderEpL c.episodeNumber)
        ++ ".png\"\nexplicit: true\nepisode: ".data) = false :=
      tfree_app_right hcs (by decide) x1 hl7
    have x3 : occursB tok ((("\ncover: \"/images/ep".data ++ renderEpL c.episodeNumber)
        ++ ".png\"\nexplicit: true\nepisode: ".data) ++ renderEpL c.episodeNumber) = false := by
      apply tfree_app_left hcs ?_ x2 hep
      rw [lastBlockedB_append (by decide)]
      decide
    have x4 := tfree_app_right hcs (by decide) x3 hl8
    have x5 : occursB tok ((((("\ncover: \"/images/ep".data ++ renderEpL c.episodeNumber)
        ++ ".png\"\nexplicit: true\nepisode: ".data) ++ renderEpL c.episodeNumber)
        ++ "\nseason: 1\nepisodeType: full\n---\n\n# ".data) ++ c.title.data) = false := by
      apply tfree_app_left hcs ?_ x4 hti
      rw [lastBlockedB_append (by decide)]
      decide
    exact tfree_app_right hcs (by decide) x5 hl9
  · rw [headBlockedB_append (append_ne_nil_left (append_ne_nil_left (append_ne_nil_left
        (append_ne_nil_left (append_ne_nil_left (by decide)))))),
      headBlockedB_append (append_ne_nil_left (append_ne_nil_left (append_ne_nil_left
        (append_ne_nil_left (by decide))))),
      headBlockedB_append (append_ne_nil_left (append_ne_nil_left (append_ne_nil_left
        (by decide)))),
      headBlockedB_append (append_ne_nil_left (append_ne_nil_left (by decide))),
      headBlockedB_append (append_ne_nil_left (by decide)),
      headBlockedB_append (by decide)]
    decide

theorem body_free {tok : List Char} (hcs : tok.all tokChar = true) (hne : tok ≠ [])
    (hlits : litsTokFree tok) {pd : String} {c : Content}
    (hc : contentTokFree tok pd c) :
    occursB tok (bodyL c) = false := by
  obtain ⟨hl1, hl2, hl3, hl4, hl5, hl6, hl7, hl8, hl9, hl10, hl11, hl12, hl13, hl14,
    hl15, hl16, hl17, hl18, hl19, hl20, hl21, hl22, hl23, hl24, hl26⟩ := hlits
  obtain ⟨hti, hpd, hdu, hde, hmo, hg, ht, hev⟩ := hc
  have hmono := mono_free hcs hne hl11 hl12 (c := c) hmo
  have hgs := gSec_free hcs hne hl13 hl14 hl15 hl16 (c := c) hg
  have hts := tSec_free hcs hne hl17 hl18 hl19 hl20 hl21 (c := c) ht
  have hes := eSec_free hcs hne hl22 hl23 hl24 hl26 (c := c) hev
  unfold bodyL
  have x1 : occursB tok (monoBlockL c ++ c.description.data) = false :=
    tfree_app_left hcs hmono.2 hmono.1 hde
  have x2 : occursB tok ((monoBlockL c ++ c.description.data) ++ "\n\n".data) = false :=
    tfree_app_right hcs (by decide) x1 hl10
  have x3 : occursB tok (((monoBlockL c ++ c.description.data) ++ "\n\n".data)
      ++ guestsSectionL c) = false :=
    tfree_app_right hcs hgs.2 x2 hgs.1
  have x4 : occursB tok ((((monoBlockL c ++ c.description.data) ++ "\n\n".data)
      ++ guestsSectionL c) ++ tracksSectionL c) = false :=
    tfree_app_right hcs hts.2 x3 hts.1
  exact tfree_app_right hcs hes.2 x4 hes.1

theorem append_ne_nil_right {α : Type} {a b : List α} (h : b ≠ []) : a ++ b ≠ [] := by
  intro hh
  rcases List.append_eq_nil.mp hh with ⟨_, h2⟩
  exact h h2

/-! ## C9 — placeholder contract of the document generator -/

/-- `C9` (counterexample): the claim quantifies over every
`ExtractedContent`.  `createEpisodeFile` replaces only the *first*
occurrence of each placeholder, so for a content whose title is itself the
string `TO_BE_CALCULATED`, the replacement consumes the title's occurrence
and the real size placeholder of the header survives in the written
document. -/
theorem c9_counterexample :
    occursB sizeTok (resolveMarkdownL (some "https://r2.example/a.mp3") "12.3"
      (generateMarkdownL "Jan 01, 2026"
        { episodeNumber := some 6, title := "TO_BE_CALCULATED", description := "",
          openingMonologue := none, duration := none, tracks := [], events := [],
          guests := [], markdownContent := "" })) = true := by
  decide

/-- `C9` (amended): for every `ExtractedContent` whose interpolated fields
(title, description, rendered monologue, duration, per-guest, per-track
and per-event strings) do not contain the placeholder tokens, and for a
resolved upload URL and rendered size estimate that do not contain them
either: the generator's output contains both placeholder tokens verbatim
(the generator takes no upload input at all — it is a function of the
content and date only), and after the publish stage's exact first-occurrence
string replacements neither token occurs in the written document. -/
theorem c9_placeholders (pd url sizeStr : String) (c : Content)
    (h1 : contentTokFree urlTok pd c)
    (h2 : contentTokFree sizeTok pd c)
    (hu1 : occursB urlTok url.data = false) (hu2 : occursB sizeTok url.data = false)
    (hs1 : occursB urlTok sizeStr.data = false) (hs2 : occursB sizeTok sizeStr.data = false) :
    occursB urlTok (generateMarkdownL pd c) = true
    ∧ occursB sizeTok (generateMarkdownL pd c) = true
    ∧ occursB urlTok (resolveMarkdownL (some url) sizeStr (generateMarkdownL pd c)) = false
    ∧ occursB sizeTok (resolveMarkdownL (some url) sizeStr (generateMarkdownL pd c)) = false := by
  have hcsU : urlTok.all tokChar = true := by decide
  have hcsS : sizeTok.all tokChar = true := by decide
  have hneU : urlTok ≠ [] := by decide
  have hneS : sizeTok ≠ [] := by decide
  have huU : ('_' : Char) ∈ urlTok := by decide
  have huS : ('_' : Char) ∈ sizeTok := by decide
  have hlitU : litsTokFree urlTok := by decide
  have hlitS : litsTokFree sizeTok := by decide
  obtain ⟨u1, u2, u3, u4, u5, u6, u7, u8, u9, u10, u11, u12, u13, u14, u15, u16, u17,
    u18, u19, u20, u21, u22, u23, u24, u26⟩ := hlitU
  obtain ⟨s1, s2, s3, s4, s5, s6, s7, s8, s9, s10, s11, s12, s13, s14, s15, s16, s17,
    s18, s19, s20, s21, s22, s23, s24, s26⟩ := hlitS
  obtain ⟨ht1, hp1, hd1, hde1, hm1, hg1, htr1, he1⟩ := h1
  obtain ⟨ht2, hp2, hd2, hde2, hm2, hg2, htr2, he2⟩ := h2
  have preU := hdrPre_free hcsU u1 u2 ht1
  have preS := hdrPre_free hcsS s1 s2 ht2
  have midU := hdrMid_free hcsU u3 u4 u5 hp1 hd1
  have midS := hdrMid_free hcsS s3 s4 s5 hp2 hd2
  have postU := hdrPost_free hcsU huU u6 u7 u8 u9 ht1
  have postS := hdrPost_free hcsS huS s6 s7 s8 s9 ht2
  have bodU := body_free hcsU hneU
    ⟨u1, u2, u3, u4, u5, u6, u7, u8, u9, u10, u11, u12, u13, u14, u15, u16, u17,
      u18, u19, u20, u21, u22, u23, u24, u26⟩
    ⟨ht1, hp1, hd1, hde1, hm1, hg1, htr1, he1⟩
  have bodS := body_free hcsS hneS
    ⟨s1, s2, s3, s4, s5, s6, s7, s8, s9, s10, s11, s12, s13, s14, s15, s16, s17,
      s18, s19, s20, s21, s22, s23, s24, s26⟩
    ⟨ht2, hp2, hd2, hde2, hm2, hg2, htr2, he2⟩
  -- non-emptiness of the relevant chunks
  have hMidNe : hdrMidL pd c ≠ [] := by
    unfold hdrMidL
    exact append_ne_nil_right (by decide)
  have hPostNe : hdrPostL c ≠ [] := by
    unfold hdrPostL
    exact append_ne_nil_right (by decide)
  have hPostLast : lastBlockedB tokChar (hdrPostL c) = true := by
    unfold hdrPostL
    rw [lastBlockedB_append (by decide)]
    decide
  -- presence of both tokens in the generated document
  have hx1 : occursB urlTok (hdrPreL c ++ urlTok) = true :=
    occursB_append_right_of (occursB_refl urlTok)
  have hpres1 : occursB urlTok (generateMarkdownL pd c) = true := by
    unfold generateMarkdownL
    exact occursB_append_left_of _ (occursB_append_left_of _ (occursB_append_left_of _
      (occursB_append_left_of _ hx1)))
  have hx2 : occursB sizeTok (((hdrPreL c ++ urlTok) ++ hdrMidL pd c) ++ sizeTok) = true :=
    occursB_append_right_of (occursB_refl sizeTok)
  have hpres2 : occursB sizeTok (generateMarkdownL pd c) = true := by
    unfold generateMarkdownL
    exact occursB_append_left_of _ (occursB_append_left_of _ hx2)
  -- the two replacements, localized
  have hassoc : generateMarkdownL pd c =
      hdrPreL c ++ (urlTok ++ (hdrMidL pd c ++ (sizeTok ++ (hdrPostL c ++ bodyL c)))) := by
    unfold generateMarkdownL
    simp [List.append_assoc]
  have hstep1 : replaceFirst urlTok url.data (generateMarkdownL pd c) =
      hdrPreL c ++ (url.data ++ (hdrMidL pd c ++ (sizeTok ++ (hdrPostL c ++ bodyL c)))) := by
    rw [hassoc,
      replaceFirst_append_of_clean hcsU (hdrPreL c) _ preU.1 (Or.inl preU.2),
      replaceFirst_head hneU]
  have hassoc2 : hdrPreL c ++ (url.data ++ (hdrMidL pd c ++ (sizeTok ++ (hdrPostL c ++ bodyL c)))) =
      (hdrPreL c ++ (url.data ++ hdrMidL pd c)) ++ (sizeTok ++ (hdrPostL c ++ bodyL c)) := by
    simp [List.append_assoc]
  have hA2free : occursB sizeTok (hdrPreL c ++ (url.data ++ hdrMidL pd c)) = false := by
    apply tfree_app_left hcsS preS.2 preS.1
    exact tfree_app_right hcsS midS.2.2 hu2 midS.1
  have hA2last : lastBlockedB tokChar (hdrPreL c ++ (url.data ++ hdrMidL pd c)) = true := by
    rw [lastBlockedB_append (append_ne_nil_right hMidNe),
      lastBlockedB_append hMidNe]
    exact midS.2.1
  have hstep2 : resolveMarkdownL (some url) sizeStr (generateMarkdownL pd c) =
      (hdrPreL c ++ (url.data ++ hdrMidL pd c)) ++ (sizeStr.data ++ (hdrPostL c ++ bodyL c)) := by
    show replaceFirst sizeTok sizeStr.data
        (replaceFirst urlTok url.data (generateMarkdownL pd c)) = _
    rw [hstep1, hassoc2,
      replaceFirst_append_of_clean hcsS _ _ hA2free (Or.inl hA2last),
      replaceFirst_head hneS]
  -- absence of both tokens in the resolved document
  have habsence : ∀ tok : List Char, tok.all tokChar = true →
      occursB tok (hdrPreL c) = false → lastBlockedB tokChar (hdrPreL c) = true →
      occursB tok (hdrMidL pd c) = false → headBlockedB tokChar (hdrMidL pd c) = true →
      occursB tok (hdrPostL c) = false → headBlockedB tokChar (hdrPostL c) = true →
      occursB tok (bodyL c) = false →
      occursB tok url.data = false → occursB tok sizeStr.data = false →
      occursB tok ((hdrPreL c ++ (url.data ++ hdrMidL pd c)) ++
        (sizeStr.data ++ (hdrPostL c ++ bodyL c))) = false := by
    intro tok hcs hpre hprelast hmid hmidhead hpost hposthead hbody hurl hsize
    have y1 : occursB tok (hdrPostL c ++ bodyL c) = false :=
      tfree_app_left hcs hPostLast hpost hbody
    have y2 : occursB tok (sizeStr.data ++ (hdrPostL c ++ bodyL c)) = false := by
      apply tfree_app_right hcs ?_ hsize y1
      rw [headBlockedB_append hPostNe]
      exact hposthead
    have y3 : occursB tok (url.data ++ hdrMidL pd c) = false :=
      tfree_app_right hcs hmidhead hurl hmid
    have y4 : occursB tok (hdrPreL c ++ (url.data ++ hdrMidL pd c)) = false :=
      tfree_app_left hcs hprelast hpre y3
    exact tfree_app_left hcs (by
      rw [lastBlockedB_append (append_ne_nil_right hMidNe), lastBlockedB_append hMidNe]
      exact midU.2.1) y4 y2
  refine ⟨hpres1, hpres2, ?_, ?_⟩
  · rw [hstep2]
    exact habsence urlTok hcsU preU.1 preU.2 midU.1 midU.2.2 postU.1 postU.2 bodU hu1 hs1
  · rw [hstep2]
    exact habsence sizeTok hcsS preS.1 preS.2 midS.1 midS.2.2 postS.1 postS.2 bodS hu2 hs2

/-- `C9` (witness): a concrete benign content (title `Hello`, description
`World`, episode 6, one track) with a resolved URL and size: both tokens
are present in the generated markdown and absent after resolution. -/
theorem c9_witness :
    occursB urlTok (generateMarkdownL "Jan 01, 2026"
      { episodeNumber := some 6, title := "Hello", description := "World",
        openingMonologue := none, duration := none,
        tracks := [⟨"DJ A", "Track B", none, none, none, none⟩], events := [],
        guests := [], markdownContent := "" }) = true
    ∧ occursB sizeTok (generateMarkdownL "Jan 01, 2026"
      { episodeNumber := some 6, title := "Hello", description := "World",
        openingMonologue := none, duration := none,
        tracks := [⟨"DJ A", "Track B", none, none, none, none⟩], events := [],
        guests := [], markdownContent := "" }) = true
    ∧ occursB urlTok (resolveMarkdownL (some "https://r2.example/a.mp3") "84.4"
      (generateMarkdownL "Jan 01, 2026"
        { episodeNumber := some 6, title := "Hello", description := "World",
          openingMonologue := none, duration := none,
          tracks := [⟨"DJ A", "Track B", none, none, none, none⟩], events := [],
          guests := [], markdownContent := "" })) = false
    ∧ occursB sizeTok (resolveMarkdownL (some "https://r2.example/a.mp3") "84.4"
      (generateMarkdownL "Jan 01, 2026"
        { episodeNumber := some 6, title := "Hello", description := "World",
          openingMonologue := none, duration := none,
          tracks := [⟨"DJ A", "Track B", none, none, none, none⟩], events := [],
          guests := [], markdownContent := "" })) = false :=
  c9_placeholders "Jan 01, 2026" "https://r2.example/a.mp3" "84.4"
    { episodeNumber := some 6, title := "Hello", description := "World",
      openingMonologue := none, duration := none,
      tracks := [⟨"DJ A", "Track B", none, none, none, none⟩], events := [],
      guests := [], markdownContent := "" }
    (by decide) (by decide)
    (by decide) (by decide) (by decide) (by decide)

end Castsmith
